import Mathlib

/-!
# cloudwatch-s3-exporter: the export sweep `CloudwatchS3Export`

A shallow embedding of `cloudwatch-s3-exporter.go`.

* Part 1 embeds the pieces of the Go standard library the program computes with
  (`time.Time.Date`, `time.Date`, `Time.Add`, `Time.UnixMilli`, `strings.Split`,
  `fmt.Sprintf("%d")`), following the calendar algorithm of package `time`
  (`absDate`, `daysSinceEpoch`, `norm`) with its 64-bit wrap-around made explicit.
* Part 2 embeds `CloudwatchS3Export` itself: the log-service client, the clock and
  the process environment are an explicit `Env` of scripted responses, and the
  function returns how the sweep ended together with the trace of every call it made.
* Part 3 defines what the statements need: projections of a trace, the
  hypotheses on the environment, and the environments of the scenarios.
* Part 4 proves the properties of the sweep.
-/

namespace CloudwatchS3Exporter

/-! ## Part 1a. Machine integers -/

/-- Conversion to `uint64`: the value modulo `2^64`. -/
def toUint64 (x : Int) : Nat := (x % 18446744073709551616).toNat

/-- Conversion to `int64`: the value wrapped into `[-2^63, 2^63)`. -/
def toInt64 (x : Int) : Int :=
  (x + 9223372036854775808) % 18446744073709551616 - 9223372036854775808

/-! ## Part 1b. Package `time` -/

def secondsPerMinute : Int := 60
def secondsPerHour : Int := 60 * secondsPerMinute
def secondsPerDay : Nat := 86400
def daysPer400Years : Nat := 365 * 400 + 97
def daysPer100Years : Nat := 365 * 100 + 24
def daysPer4Years : Nat := 365 * 4 + 1

/-- The year of the zero of the absolute time scale of package `time`. -/
def absoluteZeroYear : Int := -292277022399

/-- Offset from Unix seconds to seconds since January 1, year 1. -/
def unixToInternal : Int := (1969 * 365 + 1969 / 4 - 1969 / 100 + 1969 / 400) * 86400
def internalToUnix : Int := -unixToInternal

/-- The constant `(absoluteZeroYear - internalYear) * 365.2425 * secondsPerDay`. -/
def absoluteToInternal : Int := -9223371966579724800
def internalToAbsolute : Int := -absoluteToInternal

/-- The table `daysBefore`: `daysBefore[m]` counts the days in a non-leap year
before month `m + 1`; the final entry is the number of days of the year. -/
def daysBefore : List Nat :=
  [0,
   31,
   31 + 28,
   31 + 28 + 31,
   31 + 28 + 31 + 30,
   31 + 28 + 31 + 30 + 31,
   31 + 28 + 31 + 30 + 31 + 30,
   31 + 28 + 31 + 30 + 31 + 30 + 31,
   31 + 28 + 31 + 30 + 31 + 30 + 31 + 31,
   31 + 28 + 31 + 30 + 31 + 30 + 31 + 31 + 30,
   31 + 28 + 31 + 30 + 31 + 30 + 31 + 31 + 30 + 31,
   31 + 28 + 31 + 30 + 31 + 30 + 31 + 31 + 30 + 31 + 30,
   31 + 28 + 31 + 30 + 31 + 30 + 31 + 31 + 30 + 31 + 30 + 31]

/-- Go `isLeap`: `year%4 == 0 && (year%100 != 0 || year%400 == 0)`, with the
truncating remainder of Go. -/
def isLeap (year : Int) : Bool :=
  year.tmod 4 == 0 && (year.tmod 100 != 0 || year.tmod 400 == 0)

/-- A calendar date as returned by `absDate`. -/
structure CivilDate where
  year : Int
  month : Int
  day : Int
  yday : Int
deriving DecidableEq, Repr

/-- Go `absDate(abs, true)`: the date of an absolute time in seconds (a `uint64`). -/
def absDate (abs : Nat) : CivilDate :=
  -- Split into time and day.
  let d := abs / secondsPerDay
  -- Account for 400 year cycles.
  let n := d / daysPer400Years
  let y := 400 * n
  let d := d - daysPer400Years * n
  -- Cut off 100-year cycles.
  let n := d / daysPer100Years
  let n := n - n >>> 2
  let y := y + 100 * n
  let d := d - daysPer100Years * n
  -- Cut off 4-year cycles.
  let n := d / daysPer4Years
  let y := y + 4 * n
  let d := d - daysPer4Years * n
  -- Cut off years within a 4-year cycle.
  let n := d / 365
  let n := n - n >>> 2
  let y := y + n
  let d := d - 365 * n
  let year : Int := toInt64 (toInt64 (y : Int) + absoluteZeroYear)
  let yday : Nat := d
  if isLeap year && yday == 31 + 29 - 1 then
    -- Leap day.
    { year := year, month := 2, day := 29, yday := yday }
  else
    -- After leap day; pretend it wasn't there.
    let day : Nat := if isLeap year && yday > 31 + 29 - 1 then yday - 1 else yday
    -- Estimate month on assumption that every month has 31 days.
    let month := day / 31
    let end_ := daysBefore.getD (month + 1) 0
    let mb : Nat × Nat :=
      if day ≥ end_ then (month + 1, end_) else (month, daysBefore.getD month 0)
    { year := year, month := (mb.1 : Int) + 1, day := (day : Int) - mb.2 + 1, yday := yday }

/-- Go `norm(hi, lo, base)`: carry `lo` into `hi` so that `0 ≤ lo < base`. -/
def norm (hi lo base : Int) : Int × Int :=
  let p : Int × Int :=
    if lo < 0 then
      let n := (-lo - 1).tdiv base + 1
      (hi - n, lo + n * base)
    else (hi, lo)
  if p.2 ≥ base then
    let n := p.2.tdiv base
    (p.1 + n, p.2 - n * base)
  else p

/-- Go `daysSinceEpoch(year)`: days from the absolute epoch to the start of `year`. -/
def daysSinceEpoch (year : Int) : Nat :=
  let y := toUint64 (year - absoluteZeroYear)
  -- Add in days from 400-year cycles.
  let n := y / 400
  let y := y - 400 * n
  let d := daysPer400Years * n
  -- Add in 100-year cycles.
  let n := y / 100
  let y := y - 100 * n
  let d := d + daysPer100Years * n
  -- Add in 4-year cycles.
  let n := y / 4
  let y := y - 4 * n
  let d := d + daysPer4Years * n
  -- Add in non-leap years.
  let n := y
  d + 365 * n

/-- A `time.Time`: the instant as seconds since the Unix epoch plus nanoseconds
within the second. The location is not stored: the program only has times in
`time.Local` (from `time.Now`) and in `time.UTC` (from `time.Date`), and the
location is passed where it is used. -/
structure Time where
  sec : Int
  nsec : Int
deriving DecidableEq, Repr

/-- A `*time.Location`, as its lookup: the zone offset in seconds east of UTC
in use at a Unix second. -/
abbrev Location := Int → Int

/-- The location `time.UTC`. -/
def UTC : Location := fun _ => 0

/-- Go `Time.abs`: the time as seconds on the absolute scale, shifted by the
zone offset of its location; a `uint64`. -/
def Time.abs (t : Time) (loc : Location) : Nat :=
  toUint64 (t.sec + loc t.sec + (unixToInternal + internalToAbsolute))

/-- Go `Time.Date`: year, month and day of the time in its location. -/
def Time.Date (t : Time) (loc : Location) : CivilDate := absDate (t.abs loc)

/-- Go `Time.Add` for a duration in nanoseconds (the saturation of `addSec` at
the ends of the `int64` range of seconds is not modelled). -/
def Time.Add (t : Time) (d : Int) : Time :=
  let dsec := d.tdiv 1000000000
  let nsec := t.nsec + d.tmod 1000000000
  if nsec ≥ 1000000000 then { sec := t.sec + (dsec + 1), nsec := nsec - 1000000000 }
  else if nsec < 0 then { sec := t.sec + (dsec - 1), nsec := nsec + 1000000000 }
  else { sec := t.sec + dsec, nsec := nsec }

/-- Go `time.Date(year, month, day, hour, min, sec, nsec, time.UTC)`. -/
def Date (year month day hour min sec nsec : Int) : Time :=
  -- Normalize month, overflowing into year.
  let ym := norm year (month - 1) 12
  let year := ym.1
  let month := ym.2 + 1
  -- Normalize nsec, sec, min, hour, overflowing into day.
  let sn := norm sec nsec 1000000000
  let ms := norm min sn.1 60
  let hm := norm hour ms.1 60
  let dh := norm day hm.1 24
  let nsec := sn.2
  let sec := ms.2
  let min := hm.2
  let hour := dh.2
  let day := dh.1
  -- Compute days since the absolute epoch.
  let d := daysSinceEpoch year
  -- Add in days before this month.
  let d := toUint64 (d + toUint64 (daysBefore.getD (month - 1).toNat 0))
  let d := if isLeap year && month ≥ 3 then toUint64 (d + 1) else d
  -- Add in days before today.
  let d := toUint64 (d + toUint64 (day - 1))
  -- Add in time elapsed today.
  let abs := toUint64 (d * secondsPerDay)
  let abs := toUint64 (abs + toUint64 (hour * secondsPerHour + min * secondsPerMinute + sec))
  let unix := toInt64 (toInt64 abs + (absoluteToInternal + internalToUnix))
  { sec := unix, nsec := nsec }

/-- Go `Time.UnixMilli`: milliseconds since the Unix epoch, an `int64`. -/
def Time.UnixMilli (t : Time) : Int :=
  toInt64 (toInt64 (t.sec * 1000) + t.nsec.tdiv 1000000)

/-- The duration `time.Hour`, in nanoseconds. -/
def Hour : Int := 3600 * 1000000000

/-- The duration `time.Second`, in nanoseconds. -/
def Second : Int := 1000000000

/-! ## Part 1c. Packages `strings` and `fmt` -/

/-- The scan of `strings.Split` for a non-empty separator: `skip` counts the
characters of a separator match still to be consumed, `cur` holds the current
piece in reverse. -/
def splitGo (sep : List Char) : List Char → Nat → List Char → List String
  | [], _, cur => [String.mk cur.reverse]
  | _ :: cs, skip + 1, cur => splitGo sep cs skip cur
  | c :: cs, 0, cur =>
    if sep.isPrefixOf (c :: cs) then
      String.mk cur.reverse :: splitGo sep cs (sep.length - 1) []
    else splitGo sep cs 0 (c :: cur)

/-- Go `strings.Split(s, sep)`: the pieces of `s` between the occurrences of
`sep`; with an empty `sep`, the characters of `s`. -/
def Split (s sep : String) : List String :=
  if sep.data = [] then s.data.map String.singleton
  else splitGo sep.data s.data 0 []

/-- The verb `%d` of package `fmt` on an integer: decimal digits, no padding,
a minus sign when negative. -/
def formatInt (i : Int) : String :=
  if i < 0 then "-" ++ Nat.repr i.natAbs else Nat.repr i.natAbs

/-- Go `fmt.Sprintf("%d-%d-%d", y, m, d)`. -/
def Sprintf (y m d : Int) : String :=
  formatInt y ++ "-" ++ formatInt m ++ "-" ++ formatInt d

/-! ## Part 2. The program -/

/-- Go `types.LogGroup`, with the field the program reads (a `*string`). -/
structure LogGroup where
  LogGroupName : Option String
deriving DecidableEq, Repr

/-- Go `cloudwatchlogs.CreateExportTaskInput`; every field is a pointer. -/
structure CreateExportTaskInput where
  Destination : Option String
  From : Option Int
  LogGroupName : Option String
  To : Option Int
  DestinationPrefix : Option String
  TaskName : Option String
deriving DecidableEq, Repr

/-- Go `types.ExportTaskStatus`; `Code` is a `types.ExportTaskStatusCode`, a string. -/
structure ExportTaskStatus where
  Code : String
deriving DecidableEq, Repr

/-- Go `types.ExportTask`, with the field the program reads (a pointer). -/
structure ExportTask where
  Status : Option ExportTaskStatus
deriving DecidableEq, Repr

def ExportTaskStatusCodeCompleted : String := "COMPLETED"
def ExportTaskStatusCodeCancelled : String := "CANCELLED"
def ExportTaskStatusCodeFailed : String := "FAILED"

/-- The package variable `exportCompleteInterval = 10 * time.Second`. -/
def exportCompleteInterval : Int := 10 * Second

/-- The result of a call: an error (its message) or a value. -/
inductive Result (α : Type) where
  | error (err : String)
  | ok (val : α)
deriving DecidableEq, Repr

/-- Everything outside the program: the process environment, the local time
zone, the log service and the clock. Calls are answered from a script: the
responses are indexed by the position `i` of the log group being processed in
the list returned by `DescribeLogGroups`, and within one group by the number
`k` of earlier calls of the same kind. -/
structure Env where
  /-- Go `os.Getenv`: the value of a variable, empty when it is unset. -/
  Getenv : String → String
  /-- The location `time.Local`. -/
  Local : Location
  /-- The outcome of `config.LoadDefaultConfig`. -/
  LoadDefaultConfig : Result Unit
  /-- The response to `DescribeLogGroups` (its field `LogGroups`). -/
  DescribeLogGroups : Result (List LogGroup)
  /-- The response to `ListTagsLogGroup` for group `i` (its field `Tags`). -/
  ListTagsLogGroup : Nat → Result (List (String × String))
  /-- The response to `CreateExportTask` for group `i` (its field `TaskId`). -/
  CreateExportTask : Nat → Result (Option String)
  /-- The response to the `k`-th `DescribeExportTasks` for the task of group `i`
  (its field `ExportTasks`). -/
  DescribeExportTasks : Nat → Nat → Result (List ExportTask)
  /-- The `k`-th reading of `time.Now` while group `i` is processed. -/
  Now : Nat → Nat → Time

/-- The package variable `s3BucketName = os.Getenv("S3_BUCKET_NAME")`. -/
def s3BucketName (env : Env) : String := env.Getenv "S3_BUCKET_NAME"

/-- The three lines the program prints; the time is kept as read, before
`Format(time.UnixDate)`. -/
inductive LogLine where
  | Started (logGroupName logDate : String) (now : Time)
  | Waiting
  | Completed (logGroupName logDate : String) (now : Time) (statusCode : String)
deriving DecidableEq, Repr

/-- What the program does to the outside, in order: each call with its
arguments and the response it got. -/
inductive Event where
  | LoadDefaultConfig (resp : Result Unit)
  | DescribeLogGroups (Limit : Int) (resp : Result (List LogGroup))
  | ListTagsLogGroup (LogGroupName : String) (resp : Result (List (String × String)))
  | CreateExportTask (input : CreateExportTaskInput) (resp : Result (Option String))
  | DescribeExportTasks (TaskId : Option String) (resp : Result (List ExportTask))
  | Now (t : Time)
  | Printf (line : LogLine)
  | Sleep (d : Int)
deriving DecidableEq, Repr

/-- How a run ends. -/
inductive Outcome where
  /-- The function returned. -/
  | returned
  /-- The call `log.Fatal(err)`: the error is logged and the process exits. -/
  | fatal (err : String)
  /-- A run-time panic. -/
  | panic (msg : String)
  /-- The fuel ran out while polling: the task has reached no final status yet. -/
  | polling
deriving DecidableEq, Repr

/-- A run: how it ended and the events up to there. -/
structure Run where
  outcome : Outcome
  trace : List Event
deriving DecidableEq, Repr

def nilDereference : String := "invalid memory address or nil pointer dereference"
def indexOutOfRange : String := "index out of range"

/-- Line 53: `time.Now().Add(-24 * time.Hour).Date()`, for the clock reading `now0`. -/
def yesterday (loc : Location) (now0 : Time) : CivilDate :=
  (now0.Add (-24 * Hour)).Date loc

/-- Line 54: `fromDate`. -/
def fromDate (loc : Location) (now0 : Time) : Int :=
  let ymd := yesterday loc now0
  (Date ymd.year ymd.month ymd.day 0 0 0 0).UnixMilli

/-- Lines 56 and 57: `toDate`, for the clock reading `now1`. -/
def toDate (loc : Location) (now1 : Time) : Int :=
  let ymd1 := now1.Date loc
  (Date ymd1.year ymd1.month ymd1.day 0 0 0 0).UnixMilli

/-- Line 59: `logDate`. -/
def logDate (loc : Location) (now0 : Time) : String :=
  let ymd := yesterday loc now0
  Sprintf ymd.year ymd.month ymd.day

/-- Lines 60 and 61: `arr[len(arr)-1]`; `none` when the index is out of range. -/
def shortLogGroupName (name : String) : Option String :=
  let arr := Split name "/"
  arr.getLast?

/-- Lines 63 to 70: the input of `CreateExportTask`. -/
def exportTaskInput (bucket : String) (loc : Location) (name short : String)
    (now0 now1 : Time) : CreateExportTaskInput :=
  { Destination := some bucket
    From := some (fromDate loc now0)
    LogGroupName := some name
    To := some (toDate loc now1)
    DestinationPrefix := some (logDate loc now0)
    TaskName := some (short ++ "-" ++ logDate loc now0) }

/-- The test of lines 93 to 95 on a status code. -/
def isFinal (statusCode : String) : Bool :=
  statusCode == ExportTaskStatusCodeCompleted ||
  statusCode == ExportTaskStatusCodeCancelled ||
  statusCode == ExportTaskStatusCodeFailed

/-- Lines 82 to 101, the loop that waits for the task of group `i`, from its
`k`-th iteration on; every iteration takes one unit of fuel. It ends with the
final status code, or with the way the run stopped. -/
def waitLoop (env : Env) (i : Nat) (TaskId : Option String) :
    Nat → Nat → (Outcome ⊕ String) × List Event
  | 0, _ => (.inl .polling, [])
  | fuel + 1, k =>
    let resp := env.DescribeExportTasks i k
    let call := Event.DescribeExportTasks TaskId resp
    match resp with
    | .error err => (.inl (.fatal err), [call])
    | .ok [] => (.inl (.panic indexOutOfRange), [call])
    | .ok (task :: _) =>
      match task.Status with
      | none => (.inl (.panic nilDereference), [call])
      | some status =>
        if isFinal status.Code then (.inr status.Code, [call])
        else
          let rest := waitLoop env i TaskId fuel (k + 1)
          (rest.1, call :: Event.Printf .Waiting :: Event.Sleep exportCompleteInterval :: rest.2)

/-- Lines 44 to 108, the body of the loop over the log groups, for the group at
position `i`. -/
def processGroup (env : Env) (fuel i : Nat) (logGroup : LogGroup) : Run :=
  match logGroup.LogGroupName with
  | none => { outcome := .panic nilDereference, trace := [] }
  | some name =>
    let tags := env.ListTagsLogGroup i
    let listed := Event.ListTagsLogGroup name tags
    match tags with
    | .error err => { outcome := .fatal err, trace := [listed] }
    | .ok Tags =>
      if Tags.any (fun kv => kv.1 == "ExportLogs") then
        let now0 := env.Now i 0
        let now1 := env.Now i 1
        match shortLogGroupName name with
        | none => { outcome := .panic indexOutOfRange,
                    trace := [listed, Event.Now now0, Event.Now now1] }
        | some short =>
          let input := exportTaskInput (s3BucketName env) env.Local name short now0 now1
          let task := env.CreateExportTask i
          let created := Event.CreateExportTask input task
          match task with
          | .error err =>
            { outcome := .fatal err, trace := [listed, Event.Now now0, Event.Now now1, created] }
          | .ok TaskId =>
            let now2 := env.Now i 2
            let started := [listed, Event.Now now0, Event.Now now1, created, Event.Now now2,
              Event.Printf (.Started name (logDate env.Local now0) now2)]
            let waited := waitLoop env i TaskId fuel 0
            match waited.1 with
            | .inl stop => { outcome := stop, trace := started ++ waited.2 }
            | .inr statusCode =>
              let now3 := env.Now i 3
              { outcome := .returned,
                trace := started ++ waited.2 ++
                  [Event.Now now3,
                   Event.Printf (.Completed name (logDate env.Local now0) now3 statusCode)] }
      else { outcome := .returned, trace := [listed] }

/-- Lines 43 to 109, the loop over the log groups from position `i` on. -/
def sweep (env : Env) (fuel : Nat) : Nat → List LogGroup → Run
  | _, [] => { outcome := .returned, trace := [] }
  | i, logGroup :: rest =>
    let r := processGroup env fuel i logGroup
    match r.outcome with
    | .returned =>
      let r' := sweep env fuel (i + 1) rest
      { outcome := r'.outcome, trace := r.trace ++ r'.trace }
    | _ => r

/-- The function `CloudwatchS3Export`. The fuel bounds the iterations of each
waiting loop. -/
def CloudwatchS3Export (env : Env) (fuel : Nat) : Run :=
  let cfg := env.LoadDefaultConfig
  match cfg with
  | .error err => { outcome := .fatal err, trace := [Event.LoadDefaultConfig cfg] }
  | .ok _ =>
    let resp := env.DescribeLogGroups
    match resp with
    | .error err =>
      { outcome := .fatal err,
        trace := [Event.LoadDefaultConfig cfg, Event.DescribeLogGroups 50 resp] }
    | .ok LogGroups =>
      let r := sweep env fuel 0 LogGroups
      { outcome := r.outcome,
        trace := Event.LoadDefaultConfig cfg :: Event.DescribeLogGroups 50 resp :: r.trace }

/-! ## Part 3. Definitions for the statements -/

/-- The month and day part of `absDate`, with the leap test as a parameter. -/
def civilOf (leap : Bool) (year : Int) (yday : Nat) : CivilDate :=
  if leap && yday == 31 + 29 - 1 then
    { year := year, month := 2, day := 29, yday := yday }
  else
    let day : Nat := if leap && yday > 31 + 29 - 1 then yday - 1 else yday
    let month := day / 31
    let end_ := daysBefore.getD (month + 1) 0
    let mb : Nat × Nat :=
      if day ≥ end_ then (month + 1, end_) else (month, daysBefore.getD month 0)
    { year := year, month := (mb.1 : Int) + 1, day := (day : Int) - mb.2 + 1, yday := yday }

/-- The day of the year (from 0) that `Date` computes for a month and a day. -/
def dayOfYear (leap : Bool) (month day : Int) : Int :=
  (daysBefore.getD (month - 1).toNat 0 : Int) + (if leap && month ≥ 3 then 1 else 0) + (day - 1)

/-- The clock readings the theorems are about: within nine million billion
seconds of the epoch, so that no 64-bit conversion wraps, and with the
nanoseconds inside the second. -/
def Time.valid (t : Time) : Prop :=
  -9000000000000000 ≤ t.sec ∧ t.sec ≤ 9000000000000000 ∧ 0 ≤ t.nsec ∧ t.nsec < 1000000000

instance (t : Time) : Decidable t.valid := by
  unfold Time.valid; infer_instance

/-- Go `time.UnixMilli(msec)`: the instant with that many milliseconds since the epoch. -/
def ofUnixMilli (msec : Int) : Time :=
  { sec := msec / 1000, nsec := msec % 1000 * 1000000 }

/-- The inputs of the `CreateExportTask` calls of a trace, in order. -/
def creates : List Event → List CreateExportTaskInput
  | [] => []
  | Event.CreateExportTask input _ :: rest => input :: creates rest
  | _ :: rest => creates rest

/-- The way a response ends the run: the error of a failed call of the log
service, or the panic on a `DescribeExportTasks` response without a task or
without a status. -/
def Event.stop? : Event → Option Outcome
  | .LoadDefaultConfig (.error err) => some (.fatal err)
  | .DescribeLogGroups _ (.error err) => some (.fatal err)
  | .ListTagsLogGroup _ (.error err) => some (.fatal err)
  | .CreateExportTask _ (.error err) => some (.fatal err)
  | .DescribeExportTasks _ (.error err) => some (.fatal err)
  | .DescribeExportTasks _ (.ok []) => some (.panic indexOutOfRange)
  | .DescribeExportTasks _ (.ok (task :: _)) =>
    match task.Status with
    | none => some (.panic nilDereference)
    | some _ => none
  | _ => none

/-- The error a call of the log service returned, if it returned one. -/
def Event.err? : Event → Option String
  | .DescribeLogGroups _ (.error err) => some err
  | .ListTagsLogGroup _ (.error err) => some err
  | .CreateExportTask _ (.error err) => some err
  | .DescribeExportTasks _ (.error err) => some err
  | _ => none

/-- A trace stops at the first response that ends the run, with that outcome. -/
def Stops (o : Outcome) (tr : List Event) : Prop :=
  ∀ pre e post o', tr = pre ++ e :: post → e.stop? = some o' → post = [] ∧ o = o'

/-- The test of line 52: the tag map has the key `ExportLogs`. -/
def hasExportLogs (tags : List (String × String)) : Bool :=
  tags.any (fun kv => kv.1 == "ExportLogs")

/-- The status code in the `k`-th `DescribeExportTasks` response for the task
of group `i`, when the response is a success with a first task that has a status. -/
def statusAt (env : Env) (i k : Nat) : Option String :=
  match env.DescribeExportTasks i k with
  | .ok (task :: _) =>
    match task.Status with
    | some status => some status.Code
    | none => none
  | _ => none

/-- The `k`-th response carries a status that is not final. -/
def pendingAt (env : Env) (i k : Nat) : Bool :=
  match statusAt env i k with
  | some code => !isFinal code
  | none => false

/-- The `k`-th response carries a final status (COMPLETED, CANCELLED or FAILED). -/
def finalAt (env : Env) (i k : Nat) : Bool :=
  match statusAt env i k with
  | some code => isFinal code
  | none => false

/-- The describe responses for the task of group `i` are successes whose first
final status is at position `k`. -/
def FirstFinalAt (env : Env) (i k : Nat) : Prop :=
  (∀ j, j < k → pendingAt env i j = true) ∧ finalAt env i k = true

instance (env : Env) (i k : Nat) : Decidable (FirstFinalAt env i k) := by
  unfold FirstFinalAt; infer_instance

/-- The events of a waiting loop that starts at response `j` and sees `n`
statuses that are not final before a final one. -/
def pollEvents (env : Env) (i : Nat) (TaskId : Option String) : Nat → Nat → List Event
  | j, 0 => [Event.DescribeExportTasks TaskId (env.DescribeExportTasks i j)]
  | j, n + 1 =>
    Event.DescribeExportTasks TaskId (env.DescribeExportTasks i j) ::
      Event.Printf .Waiting :: Event.Sleep exportCompleteInterval ::
      pollEvents env i TaskId (j + 1) n

/-- The `DescribeExportTasks` calls of a trace with their task ids, in order. -/
def describes : List Event → List (Option String)
  | [] => []
  | Event.DescribeExportTasks TaskId _ :: rest => TaskId :: describes rest
  | _ :: rest => describes rest

/-- The durations of the sleeps of a trace, in order. -/
def sleeps : List Event → List Int
  | [] => []
  | Event.Sleep d :: rest => d :: sleeps rest
  | _ :: rest => sleeps rest

/-- The last `/`-separated piece of a group name. -/
def shortName (name : String) : String := ((Split name "/").getLast?).getD ""

/-- The events of the processing of a selected group `i` whose task reaches its
first final status at response `k`. -/
def groupEvents (env : Env) (i : Nat) (name : String) (TaskId : Option String) (k : Nat) :
    List Event :=
  [Event.ListTagsLogGroup name (env.ListTagsLogGroup i), Event.Now (env.Now i 0),
    Event.Now (env.Now i 1),
    Event.CreateExportTask
      (exportTaskInput (s3BucketName env) env.Local name (shortName name) (env.Now i 0)
        (env.Now i 1)) (env.CreateExportTask i),
    Event.Now (env.Now i 2),
    Event.Printf (.Started name (logDate env.Local (env.Now i 0)) (env.Now i 2))] ++
  pollEvents env i TaskId 0 k ++
  [Event.Now (env.Now i 3),
    Event.Printf (.Completed name (logDate env.Local (env.Now i 0)) (env.Now i 3)
      ((statusAt env i k).getD ""))]

/-- The environment of the scenarios: the bucket name `bucket`, the clock in
UTC and fixed at `now`, the log groups `names`, each with the tags `tags`, and
for every task the statuses `statuses` in turn and then COMPLETED. -/
def scenario (bucket : String) (now : Time) (names : List String)
    (tags : List (String × String)) (statuses : List String) : Env where
  Getenv := fun v => if v = "S3_BUCKET_NAME" then bucket else ""
  Local := UTC
  LoadDefaultConfig := .ok ()
  DescribeLogGroups := .ok (names.map fun n => { LogGroupName := some n })
  ListTagsLogGroup := fun _ => .ok tags
  CreateExportTask := fun i => .ok (some ("task-" ++ Nat.repr i))
  DescribeExportTasks := fun _ k =>
    .ok [{ Status := some { Code := statuses.getD k "COMPLETED" } }]
  Now := fun _ _ => now

/-- Scenario S2: the group `/svc/api` with the tag, at 2024-03-15T10:00:00Z,
with RUNNING once and then COMPLETED. -/
def envS2 (bucket : String) : Env :=
  scenario bucket { sec := 1710496800, nsec := 0 } ["/svc/api"] [("ExportLogs", "yes")] ["RUNNING"]

/-- Scenario S3: the group `flat` with the tag, at 2024-01-05T00:30:00Z. -/
def envS3 : Env :=
  scenario "export-bucket" { sec := 1704414600, nsec := 0 } ["flat"] [("ExportLogs", "true")] []

/-- A selected group whose two clock readings fall on either side of midnight
UTC: 2024-03-14T23:59:59.9Z at line 53 and 2024-03-15T00:00:00.1Z at line 56. -/
def envMidnight : Env :=
  { scenario "export-bucket" { sec := 1710460800, nsec := 100000000 } ["/svc/api"]
      [("ExportLogs", "yes")] [] with
    Now := fun _ k => if k = 0 then { sec := 1710460799, nsec := 900000000 }
      else { sec := 1710460800, nsec := 100000000 } }

/-- The zone offsets the theorems are about: within 100000 seconds of UTC
(the zones in use are within 14 hours). -/
def Location.bounded (loc : Location) : Prop :=
  ∀ s : Int, -100000 ≤ loc s ∧ loc s ≤ 100000

/-- The group at position `i` is selected: its tags were returned and have the key. -/
def isSelected (env : Env) (i : Nat) : Bool :=
  match env.ListTagsLogGroup i with
  | .ok tags => hasExportLogs tags
  | .error _ => false

/-- The names of the selected groups among `groups`, listed from position `i` on, in order. -/
def selectedNames (env : Env) : Nat → List LogGroup → List (Option String)
  | _, [] => []
  | i, g :: gs =>
    if isSelected env i then g.LogGroupName :: selectedNames env (i + 1) gs
    else selectedNames env (i + 1) gs

/-- The environment with another value for `S3_BUCKET_NAME`. -/
def Env.withBucket (env : Env) (bucket : String) : Env :=
  { env with Getenv := fun v => if v = "S3_BUCKET_NAME" then bucket else env.Getenv v }

/-- The event with another destination, when it is a `CreateExportTask` call. -/
def Event.withDestination (bucket : String) : Event → Event
  | .CreateExportTask input resp => .CreateExportTask { input with Destination := some bucket } resp
  | e => e

/-- Scenario S4 with a group to skip: `/svc/a` with the tag, whose task ends
FAILED after one RUNNING; `/svc/skip` without the tag; `/svc/b` with the tag,
whose task is COMPLETED at once. -/
def envS4 : Env :=
  { scenario "export-bucket" { sec := 1710496800, nsec := 0 }
      ["/svc/a", "/svc/skip", "/svc/b"] [] [] with
    ListTagsLogGroup := fun i => if i = 1 then .ok [("Team", "x")] else .ok [("ExportLogs", "")]
    DescribeExportTasks := fun i k =>
      if i = 0 then
        if k = 0 then .ok [{ Status := some { Code := "RUNNING" } }]
        else .ok [{ Status := some { Code := "FAILED" } }]
      else .ok [{ Status := some { Code := "COMPLETED" } }] }

/-- Scenario S5: three groups with the tag; `ListTagsLogGroup` fails for the second. -/
def envS5 : Env :=
  { scenario "export-bucket" { sec := 1710496800, nsec := 0 }
      ["/svc/a", "/svc/b", "/svc/c"] [("ExportLogs", "yes")] [] with
    ListTagsLogGroup := fun i =>
      if i = 1 then .error "ThrottlingException" else .ok [("ExportLogs", "yes")] }

/-- Scenario S6: one group with the tag; PENDING, PENDING, RUNNING, COMPLETED. -/
def envS6 : Env :=
  scenario "export-bucket" { sec := 1710496800, nsec := 0 } ["/svc/api"]
    [("ExportLogs", "yes")] ["PENDING", "PENDING", "RUNNING"]

/-- One group with the tag whose second `DescribeExportTasks` response has no task. -/
def envEmptyDescribe : Env :=
  { scenario "export-bucket" { sec := 1710496800, nsec := 0 } ["/svc/a", "/svc/b"]
      [("ExportLogs", "yes")] [] with
    DescribeExportTasks := fun _ k =>
      if k = 0 then .ok [{ Status := some { Code := "PENDING" } }] else .ok [] }

/-- Scenario S2 with `S3_BUCKET_NAME` unset. -/
def envNoBucket : Env := envS2 ""

/-! ## Part 4. Theorems -/

theorem toInt64_of_range (x : Int) (h1 : -9223372036854775808 ≤ x) (h2 : x < 9223372036854775808) :
    toInt64 x = x := by
  unfold toInt64; omega

theorem toUint64_of_range (x : Int) (h1 : 0 ≤ x) (h2 : x < 18446744073709551616) :
    (toUint64 x : Int) = x := by
  unfold toUint64; omega

theorem toUint64_natCast (x : Nat) (h2 : x < 18446744073709551616) :
    toUint64 (x : Int) = x := by
  unfold toUint64; omega

theorem toUint64_eq (x : Int) (n : Nat) (h : x = n) (hn : n < 18446744073709551616) :
    toUint64 x = n := by
  subst h; exact toUint64_natCast n hn

theorem toInt64_toInt64_add (x c : Int) : toInt64 (toInt64 x + c) = toInt64 (x + c) := by
  unfold toInt64; omega

theorem tmod_eq_zero_iff (a b : Int) : a.tmod b = 0 ↔ a % b = 0 := by
  constructor
  · intro h; exact Int.emod_eq_zero_of_dvd (Int.dvd_of_tmod_eq_zero h)
  · intro h; exact Int.tmod_eq_zero_of_dvd (Int.dvd_of_emod_eq_zero h)

theorem isLeap_iff (year : Int) :
    isLeap year = true ↔ year % 4 = 0 ∧ (year % 100 ≠ 0 ∨ year % 400 = 0) := by
  simp [isLeap, tmod_eq_zero_iff]

set_option maxRecDepth 100000 in
theorem civilOf_spec : ∀ leap : Bool, ∀ yday : Nat, yday < 366 → (yday < 365 ∨ leap = true) →
    (civilOf leap 0 yday).month ≥ 1 ∧ (civilOf leap 0 yday).month ≤ 12 ∧
    (civilOf leap 0 yday).day ≥ 1 ∧ (civilOf leap 0 yday).day ≤ 31 ∧
    dayOfYear leap (civilOf leap 0 yday).month (civilOf leap 0 yday).day = yday := by
  decide

theorem civilOf_year (leap : Bool) (year : Int) (yday : Nat) :
    (civilOf leap year yday).year = year ∧
    (civilOf leap year yday).month = (civilOf leap 0 yday).month ∧
    (civilOf leap year yday).day = (civilOf leap 0 yday).day := by
  unfold civilOf
  split <;> simp

theorem split100 (r1 : Nat) (h : r1 < 146097) :
    r1 / 36524 - (r1 / 36524) / 4 ≤ 3 ∧ 36524 * (r1 / 36524 - (r1 / 36524) / 4) ≤ r1 ∧
    r1 - 36524 * (r1 / 36524 - (r1 / 36524) / 4) < 36525 ∧
    (r1 / 36524 - (r1 / 36524) / 4 < 3 →
      r1 - 36524 * (r1 / 36524 - (r1 / 36524) / 4) < 36524) := by
  omega

theorem split4 (r2 : Nat) (h : r2 < 36525) :
    r2 / 1461 ≤ 24 ∧ 1461 * (r2 / 1461) ≤ r2 ∧ r2 - 1461 * (r2 / 1461) < 1461 ∧
    (r2 < 36524 → r2 / 1461 = 24 → r2 - 1461 * (r2 / 1461) < 1460) := by
  omega

theorem split1 (r3 : Nat) (h : r3 < 1461) :
    r3 / 365 - (r3 / 365) / 4 ≤ 3 ∧ 365 * (r3 / 365 - (r3 / 365) / 4) ≤ r3 ∧
    r3 - 365 * (r3 / 365 - (r3 / 365) / 4) < 366 ∧
    (r3 < 1460 → r3 - 365 * (r3 / 365 - (r3 / 365) / 4) < 365) ∧
    (r3 / 365 - (r3 / 365) / 4 < 3 → r3 - 365 * (r3 / 365 - (r3 / 365) / 4) < 365) := by
  omega

/-- The shape of `absDate`: the day count splits into cycles of 400, 100, 4 and 1
years plus a day of the year. -/
theorem absDate_shape (abs : Nat) :
    ∃ n a b c yday : Nat, a ≤ 3 ∧ b ≤ 24 ∧ c ≤ 3 ∧
      146097 * n + 36524 * a + 1461 * b + 365 * c + yday = abs / 86400 ∧
      yday < 366 ∧ (yday < 365 ∨ (c = 3 ∧ (b < 24 ∨ a = 3))) ∧
      absDate abs =
        civilOf (isLeap (toInt64 (toInt64 ((400 * n + 100 * a + 4 * b + c : Nat) : Int)
            + absoluteZeroYear)))
          (toInt64 (toInt64 ((400 * n + 100 * a + 4 * b + c : Nat) : Int) + absoluteZeroYear))
          yday := by
  have h400 : abs / 86400 - 146097 * (abs / 86400 / 146097) < 146097 := by omega
  have h400' : 146097 * (abs / 86400 / 146097) ≤ abs / 86400 := by omega
  generalize hr1 : abs / 86400 - 146097 * (abs / 86400 / 146097) = r1 at h400
  obtain ⟨ha, ha', hr2, hr2'⟩ := split100 r1 h400
  generalize hr2e : r1 - 36524 * (r1 / 36524 - (r1 / 36524) / 4) = r2 at hr2 hr2'
  obtain ⟨hb, hb', hr3, hr3'⟩ := split4 r2 hr2
  generalize hr3e : r2 - 1461 * (r2 / 1461) = r3 at hr3 hr3'
  obtain ⟨hc, hc', hy, hy', hy''⟩ := split1 r3 hr3
  refine ⟨abs / 86400 / 146097, r1 / 36524 - (r1 / 36524) / 4, r2 / 1461,
    r3 / 365 - (r3 / 365) / 4, r3 - 365 * (r3 / 365 - (r3 / 365) / 4), ha, hb, hc, ?_, hy, ?_, ?_⟩
  · omega
  · omega
  · subst hr3e hr2e hr1
    simp only [absDate, secondsPerDay, daysPer400Years, daysPer100Years, daysPer4Years,
      Nat.shiftRight_eq_div_pow, civilOf]

theorem year_of_cycles (n a b c : Nat) (ha : a ≤ 3) (hb : b ≤ 24) (hc : c ≤ 3)
    (hn : n < 1500000000) :
    toInt64 (toInt64 ((400 * n + 100 * a + 4 * b + c : Nat) : Int) + absoluteZeroYear) =
      (400 * n + 100 * a + 4 * b + c : Nat) + absoluteZeroYear := by
  simp only [toInt64, absoluteZeroYear]
  omega

theorem isLeap_of_cycles (n a b c : Nat) (ha : a ≤ 3) (hb : b ≤ 24) (hc : c ≤ 3) :
    isLeap ((400 * n + 100 * a + 4 * b + c : Nat) + absoluteZeroYear) = true ↔
      (c = 3 ∧ (b < 24 ∨ a = 3)) := by
  rw [isLeap_iff]
  simp only [absoluteZeroYear]
  omega

theorem daysSinceEpoch_of_cycles (n a b c : Nat) (ha : a ≤ 3) (hb : b ≤ 24) (hc : c ≤ 3)
    (hn : n < 1500000000) :
    daysSinceEpoch ((400 * n + 100 * a + 4 * b + c : Nat) + absoluteZeroYear) =
      146097 * n + 36524 * a + 1461 * b + 365 * c := by
  have h : toUint64 (((400 * n + 100 * a + 4 * b + c : Nat) : Int) + absoluteZeroYear
      - absoluteZeroYear) = 400 * n + 100 * a + 4 * b + c := by
    simp only [toUint64]
    omega
  simp only [daysSinceEpoch, h, daysPer400Years, daysPer100Years, daysPer4Years]
  omega

theorem norm_id (hi lo base : Int) (h0 : 0 ≤ lo) (h1 : lo < base) :
    norm hi lo base = (hi, lo) := by
  simp [norm, not_lt.mpr h0, not_le.mpr h1]

theorem daysBefore_le (i : Nat) : daysBefore.getD i 0 ≤ 365 := by
  by_cases h : i < 13
  · interval_cases i <;> decide
  · have hl : daysBefore.length ≤ i := by simp [daysBefore]; omega
    simp [List.getD, List.getElem?_eq_none hl]

/-- What `Date` computes at midnight of a well-formed date. -/
theorem Date_midnight (year month day : Int) (D : Nat) (hm1 : 1 ≤ month) (hm2 : month ≤ 12)
    (hD : (daysSinceEpoch year : Int) + dayOfYear (isLeap year) month day = D)
    (hd : 1 ≤ day) (hD2 : D * 86400 < 18446744073709551616) :
    Date year month day 0 0 0 0 =
      { sec := toInt64 ((D * 86400 : Nat) + (absoluteToInternal + internalToUnix)), nsec := 0 } := by
  have hn : norm year (month - 1) 12 = (year, month - 1) := norm_id _ _ _ (by omega) (by omega)
  have h0 : ∀ hi : Int, norm hi 0 1000000000 = (hi, 0) := fun hi => norm_id _ _ _ (by omega) (by omega)
  have h1 : ∀ hi : Int, norm hi 0 60 = (hi, 0) := fun hi => norm_id _ _ _ (by omega) (by omega)
  have h2 : ∀ hi : Int, norm hi 0 24 = (hi, 0) := fun hi => norm_id _ _ _ (by omega) (by omega)
  have hmm : month - 1 + 1 = month := by omega
  have hdb := daysBefore_le (month - 1).toNat
  simp only [Date, hn, h0, h1, h2, hmm]
  simp only [dayOfYear] at hD
  generalize daysBefore.getD (month - 1).toNat 0 = db at hD hdb ⊢
  generalize daysSinceEpoch year = E at hD ⊢
  have hu : unixToInternal = 62135596800 := by decide
  simp only [secondsPerDay, secondsPerHour, secondsPerMinute,
    absoluteToInternal, internalToUnix, hu]
  have hday : toUint64 (day - 1) = (day - 1).toNat := toUint64_eq _ _ (by omega) (by omega)
  have hz : toUint64 (0 * (60 * 60) + 0 * 60 + 0) = 0 := by decide
  have hdb' : toUint64 (db : Int) = db := toUint64_eq _ _ rfl (by omega)
  have hE : toUint64 ((E : Int) + (db : Nat)) = E + db :=
    toUint64_eq _ _ (by push_cast; rfl) (by omega)
  rw [hday, hz, hdb', hE]
  cases hc : (isLeap year && decide (month ≥ 3))
  · simp only [hc, Bool.false_eq_true, if_false] at hD ⊢
    have h3 : toUint64 (((E + db : Nat) : Int) + ((day - 1).toNat : Nat)) = D :=
      toUint64_eq _ _ (by omega) (by omega)
    have h4 : toUint64 ((D : Int) * ((86400 : Nat) : Int)) = D * 86400 :=
      toUint64_eq _ _ (by push_cast; rfl) (by omega)
    have h5 : toUint64 (((D * 86400 : Nat) : Int) + ((0 : Nat) : Int)) = D * 86400 :=
      toUint64_eq _ _ (by push_cast; omega) (by omega)
    rw [h3, h4, h5, toInt64_toInt64_add]
  · simp only [hc, if_true] at hD ⊢
    have h2 : toUint64 (((E + db : Nat) : Int) + 1) = E + db + 1 :=
      toUint64_eq _ _ (by push_cast; rfl) (by omega)
    have h3 : toUint64 (((E + db + 1 : Nat) : Int) + ((day - 1).toNat : Nat)) = D :=
      toUint64_eq _ _ (by omega) (by omega)
    have h4 : toUint64 ((D : Int) * ((86400 : Nat) : Int)) = D * 86400 :=
      toUint64_eq _ _ (by push_cast; rfl) (by omega)
    have h5 : toUint64 (((D * 86400 : Nat) : Int) + ((0 : Nat) : Int)) = D * 86400 :=
      toUint64_eq _ _ (by push_cast; omega) (by omega)
    rw [h2, h3, h4, h5, toInt64_toInt64_add]

/-- Round trip: `Date` at midnight of the date of an absolute time is the start
of the day of that time; and the month and the day are in range. -/
theorem Date_absDate (abs : Nat) (h : abs < 18446744073709551616) :
    Date (absDate abs).year (absDate abs).month (absDate abs).day 0 0 0 0 =
      { sec := toInt64 ((abs / 86400 * 86400 : Nat) + (absoluteToInternal + internalToUnix)),
        nsec := 0 } ∧
    1 ≤ (absDate abs).month ∧ (absDate abs).month ≤ 12 ∧
    1 ≤ (absDate abs).day ∧ (absDate abs).day ≤ 31 := by
  obtain ⟨n, a, b, c, yday, ha, hb, hc, hsum, hy, hleap, hshape⟩ := absDate_shape abs
  have hn : n < 1500000000 := by omega
  rw [year_of_cycles n a b c ha hb hc hn] at hshape
  have hl : yday < 365 ∨ isLeap ((400 * n + 100 * a + 4 * b + c : Nat) + absoluteZeroYear) = true := by
    rcases hleap with h1 | h1
    · exact Or.inl h1
    · exact Or.inr ((isLeap_of_cycles n a b c ha hb hc).mpr h1)
  obtain ⟨m1, m2, d1, d2, hdoy⟩ := civilOf_spec _ yday hy hl
  obtain ⟨ey, em, ed⟩ := civilOf_year
    (isLeap ((400 * n + 100 * a + 4 * b + c : Nat) + absoluteZeroYear))
    ((400 * n + 100 * a + 4 * b + c : Nat) + absoluteZeroYear) yday
  rw [hshape, ey, em, ed]
  refine ⟨?_, m1, m2, d1, d2⟩
  apply Date_midnight _ _ _ (abs / 86400) m1 m2 _ d1 (by omega)
  rw [daysSinceEpoch_of_cycles n a b c ha hb hc hn, hdoy]
  omega

theorem absDate_congr (a b : Nat) (h : a / 86400 = b / 86400) : absDate a = absDate b := by
  simp only [absDate, secondsPerDay, h]

/-- In range, the date of `abs` has a year whose sign is that of the absolute
time relative to the start of year 0. -/
theorem absDate_year_nonneg (abs : Nat) (h : abs < 18446744073709551616)
    (h0 : 9223371966579724800 - 31622400 ≤ abs) : 0 ≤ (absDate abs).year := by
  obtain ⟨n, a, b, c, yday, ha, hb, hc, hsum, hy, hleap, hshape⟩ := absDate_shape abs
  have hn : n < 1500000000 := by omega
  rw [year_of_cycles n a b c ha hb hc hn] at hshape
  rw [hshape, (civilOf_year _ _ _).1]
  simp only [absoluteZeroYear]
  omega

theorem digitChar_isDigit (d : Nat) (h : d < 10) : (Nat.digitChar d).isDigit = true := by
  interval_cases d <;> decide

theorem toDigitsCore_digits (fuel : Nat) : ∀ (n : Nat) (ds : List Char),
    (∀ ch ∈ ds, ch.isDigit = true) → ∀ ch ∈ Nat.toDigitsCore 10 fuel n ds, ch.isDigit = true := by
  induction fuel with
  | zero => intro n ds h; simpa [Nat.toDigitsCore] using h
  | succ f ih =>
    intro n ds h
    have hd : ∀ ch ∈ Nat.digitChar (n % 10) :: ds, ch.isDigit = true := by
      intro ch hch
      rcases List.mem_cons.mp hch with h1 | h1
      · rw [h1]; exact digitChar_isDigit _ (Nat.mod_lt _ (by decide))
      · exact h ch h1
    simp only [Nat.toDigitsCore]
    split
    · exact hd
    · exact ih _ _ hd

theorem repr_digits (n : Nat) : ∀ ch ∈ (Nat.repr n).data, ch.isDigit = true := by
  simp only [Nat.repr, Nat.toDigits, List.asString]
  exact toDigitsCore_digits _ _ _ (by simp)

theorem formatInt_digits (i : Int) (h : 0 ≤ i) : ∀ ch ∈ (formatInt i).data, ch.isDigit = true := by
  have : ¬ i < 0 := by omega
  simp only [formatInt, this, if_false]
  exact repr_digits _

theorem splitGo_ne_nil (sep : List Char) : ∀ (l : List Char) (skip : Nat) (cur : List Char),
    splitGo sep l skip cur ≠ [] := by
  intro l
  induction l with
  | nil => intro skip cur; simp [splitGo]
  | cons c cs ih =>
    intro skip cur
    cases skip with
    | zero =>
      simp only [splitGo]
      split
      · simp
      · exact ih _ _
    | succ k => simpa [splitGo] using ih k cur

/-- Splitting on a one-character separator a text without the separator. -/
theorem splitGo_none (c : Char) : ∀ (a cur : List Char), c ∉ a →
    splitGo [c] a 0 cur = [String.mk (cur.reverse ++ a)] := by
  intro a
  induction a with
  | nil => intro cur _; simp [splitGo]
  | cons x xs ih =>
    intro cur h
    have hx : ¬ (c = x) := fun e => h (by simp [e])
    have hxs : c ∉ xs := fun e => h (by simp [e])
    simp [splitGo, List.isPrefixOf, hx, ih _ hxs]

/-- Splitting on a one-character separator: the piece before its first occurrence. -/
theorem splitGo_first (c : Char) : ∀ (a rest cur : List Char), c ∉ a →
    splitGo [c] (a ++ c :: rest) 0 cur = String.mk (cur.reverse ++ a) :: splitGo [c] rest 0 [] := by
  intro a
  induction a with
  | nil => intro rest cur _; simp [splitGo, List.isPrefixOf]
  | cons x xs ih =>
    intro rest cur h
    have hx : ¬ (c = x) := fun e => h (by simp [e])
    have hxs : c ∉ xs := fun e => h (by simp [e])
    simp [splitGo, List.isPrefixOf, hx, ih _ _ hxs]

theorem getLast?_cons_ne {α : Type} (a : α) (l : List α) (h : l ≠ []) :
    (a :: l).getLast? = l.getLast? := by
  cases l with
  | nil => exact absurd rfl h
  | cons b t => simp [List.getLast?]

/-- The last piece of a split on `/` is the longest suffix without `/`. -/
theorem splitGo_last : ∀ (l cur : List Char), '/' ∉ cur →
    ∃ s : List Char, (splitGo ['/'] l 0 cur).getLast? = some (String.mk s) ∧ '/' ∉ s ∧
      (s = cur.reverse ++ l ∨ ∃ pre, cur.reverse ++ l = pre ++ '/' :: s) := by
  intro l
  induction l with
  | nil => intro cur h; exact ⟨cur.reverse, by simp [splitGo], by simpa using h, Or.inl (by simp)⟩
  | cons x xs ih =>
    intro cur h
    by_cases hx : '/' = x
    · obtain ⟨s, h1, h2, h3⟩ := ih [] (by simp)
      refine ⟨s, ?_, h2, Or.inr ?_⟩
      · simp only [splitGo, List.isPrefixOf, hx, beq_self_eq_true, Bool.and_self, if_true,
          List.length_singleton, Nat.sub_self]
        subst hx
        rw [getLast?_cons_ne _ _ (splitGo_ne_nil _ _ _ _)]
        exact h1
      · subst hx
        rcases h3 with h3 | ⟨pre, h3⟩
        · exact ⟨cur.reverse, by simp_all⟩
        · exact ⟨cur.reverse ++ '/' :: pre, by simp_all⟩
    · obtain ⟨s, h1, h2, h3⟩ := ih (x :: cur) (by simp [hx, h])
      refine ⟨s, ?_, h2, ?_⟩
      · simpa [splitGo, List.isPrefixOf, hx] using h1
      · simpa using h3

theorem Add_day (t : Time) (hv : t.valid) :
    t.Add (-24 * Hour) = { sec := t.sec - 86400, nsec := t.nsec } := by
  obtain ⟨_, _, h3, h4⟩ := hv
  have e1 : (-24 * Hour).tdiv 1000000000 = -86400 := by decide
  have e2 : (-24 * Hour).tmod 1000000000 = 0 := by decide
  simp only [Time.Add, e1, e2, add_zero]
  rw [if_neg (by omega), if_neg (by omega)]
  congr 1

theorem UnixMilli_of_range (t : Time) (h1 : -9200000000000000 ≤ t.sec)
    (h2 : t.sec ≤ 9200000000000000) (h3 : 0 ≤ t.nsec) (h4 : t.nsec < 1000000000) :
    t.UnixMilli = t.sec * 1000 + t.nsec / 1000000 := by
  have e : t.nsec.tdiv 1000000 = t.nsec / 1000000 := Int.tdiv_eq_ediv h3 (by decide)
  simp only [Time.UnixMilli, e]
  rw [toInt64_toInt64_add]
  exact toInt64_of_range _ (by omega) (by omega)

/-- Midnight of the date of an absolute time, in milliseconds since the epoch. -/
theorem midnight_UnixMilli (abs : Nat)
    (h1 : 9223372028715321600 - 9100000000000000 ≤ abs)
    (h2 : abs ≤ 9223372028715321600 + 9100000000000000) :
    (Date (absDate abs).year (absDate abs).month (absDate abs).day 0 0 0 0).UnixMilli =
      ((abs / 86400 * 86400 : Nat) - 9223372028715321600) * 1000 := by
  have hu : unixToInternal = 62135596800 := by decide
  rw [(Date_absDate abs (by omega)).1]
  have hs : toInt64 ((abs / 86400 * 86400 : Nat) + (absoluteToInternal + internalToUnix)) =
      (abs / 86400 * 86400 : Nat) - 9223372028715321600 := by
    simp only [absoluteToInternal, internalToUnix, hu]
    rw [toInt64_of_range _ (by omega) (by omega)]
    omega
  rw [UnixMilli_of_range _ (by simp only [hs]; omega) (by simp only [hs]; omega)
    (by simp) (by simp), hs]
  simp

theorem abs_of_range (t : Time) (loc : Location) (h1 : -9000000000086400 ≤ t.sec)
    (h2 : t.sec ≤ 9000000000000000) (h3 : -100000 ≤ loc t.sec) (h4 : loc t.sec ≤ 100000) :
    (t.abs loc : Int) = t.sec + loc t.sec + 9223372028715321600 := by
  have hu : unixToInternal = 62135596800 := by decide
  simp only [Time.abs, internalToAbsolute, absoluteToInternal, hu]
  rw [toUint64_of_range _ (by omega) (by omega)]
  omega

/-- With a clock in UTC, `toDate` is the start of the UTC day of the reading. -/
theorem toDate_UTC (t : Time) (hv : t.valid) :
    toDate UTC t = 86400000 * (t.UnixMilli / 86400000) := by
  obtain ⟨v1, v2, v3, v4⟩ := hv
  have ha := abs_of_range t UTC (by omega) v2 (by simp [UTC]) (by simp [UTC])
  simp only [UTC, add_zero] at ha
  simp only [toDate, Time.Date]
  rw [midnight_UnixMilli _ (by omega) (by omega),
    UnixMilli_of_range t (by omega) (by omega) v3 v4]
  push_cast
  omega

/-- With a clock in UTC, `fromDate` is the start of the UTC day 24 hours before the reading. -/
theorem fromDate_UTC (t : Time) (hv : t.valid) :
    fromDate UTC t = 86400000 * ((t.UnixMilli - 86400000) / 86400000) := by
  have hv' := hv
  obtain ⟨v1, v2, v3, v4⟩ := hv'
  have ha := abs_of_range ⟨t.sec - 86400, t.nsec⟩ UTC (by simp only; omega) (by simp only; omega)
    (by simp [UTC]) (by simp [UTC])
  simp only [UTC, add_zero] at ha
  simp only [fromDate, yesterday, Time.Date, Add_day t hv]
  rw [midnight_UnixMilli _ (by omega) (by omega),
    UnixMilli_of_range t (by omega) (by omega) v3 v4]
  push_cast
  omega

theorem err?_stop? (e : Event) (err : String) (h : e.err? = some err) :
    e.stop? = some (.fatal err) := by
  cases e with
  | DescribeLogGroups l r => cases r <;> simp_all [Event.err?, Event.stop?]
  | ListTagsLogGroup l r => cases r <;> simp_all [Event.err?, Event.stop?]
  | CreateExportTask l r => cases r <;> simp_all [Event.err?, Event.stop?]
  | DescribeExportTasks l r => cases r <;> simp_all [Event.err?, Event.stop?]
  | _ => simp [Event.err?] at h

theorem stop?_ne_returned (e : Event) : e.stop? ≠ some .returned := by
  cases e with
  | LoadDefaultConfig r => cases r <;> simp [Event.stop?]
  | DescribeLogGroups l r => cases r <;> simp [Event.stop?]
  | ListTagsLogGroup l r => cases r <;> simp [Event.stop?]
  | CreateExportTask l r => cases r <;> simp [Event.stop?]
  | DescribeExportTasks l r =>
    cases r with
    | error e => simp [Event.stop?]
    | ok l =>
      cases l with
      | nil => simp [Event.stop?]
      | cons t ts => simp only [Event.stop?]; split <;> simp
  | _ => simp [Event.stop?]

theorem Stops_nil (o : Outcome) : Stops o [] := by
  intro pre e post o' h
  simp at h

theorem Stops_cons (o : Outcome) (e : Event) (tr : List Event) (he : e.stop? = none)
    (h : Stops o tr) : Stops o (e :: tr) := by
  intro pre e' post o' heq hs
  cases pre with
  | nil =>
    simp only [List.nil_append, List.cons.injEq] at heq
    rw [← heq.1, he] at hs
    simp at hs
  | cons p ps =>
    simp only [List.cons_append, List.cons.injEq] at heq
    exact h ps e' post o' heq.2 hs

theorem Stops_append (o : Outcome) (tr1 tr2 : List Event) (h1 : ∀ e ∈ tr1, e.stop? = none)
    (h : Stops o tr2) : Stops o (tr1 ++ tr2) := by
  induction tr1 with
  | nil => simpa using h
  | cons e es ih =>
    exact Stops_cons o e _ (h1 e (by simp)) (ih (fun e' he' => h1 e' (by simp [he'])))

theorem Stops_single (o : Outcome) (e : Event) (h : ∀ o', e.stop? = some o' → o = o') :
    Stops o [e] := by
  intro pre e' post o' heq hs
  cases pre with
  | nil =>
    simp only [List.nil_append, List.cons.injEq] at heq
    exact ⟨heq.2.symm, h o' (heq.1 ▸ hs)⟩
  | cons p ps =>
    simp at heq

/-- A trace that stops with the outcome `returned` has no stopping response. -/
theorem Stops_returned (tr : List Event) (h : Stops .returned tr) : ∀ e ∈ tr, e.stop? = none := by
  intro e he
  obtain ⟨pre, post, hsplit⟩ := List.append_of_mem he
  cases hs : e.stop? with
  | none => rfl
  | some o' =>
    have := (h pre e post o' hsplit hs).2
    exact absurd (this ▸ hs) (stop?_ne_returned e)

/-! ### The waiting loop -/

theorem waitLoop_stops (env : Env) (i : Nat) (TaskId : Option String) :
    ∀ fuel k, (∀ o, (waitLoop env i TaskId fuel k).1 = .inl o →
        Stops o (waitLoop env i TaskId fuel k).2) ∧
      (∀ code, (waitLoop env i TaskId fuel k).1 = .inr code →
        ∀ e ∈ (waitLoop env i TaskId fuel k).2, e.stop? = none) := by
  intro fuel
  induction fuel with
  | zero => intro k; simp [waitLoop, Stops_nil]
  | succ f ih =>
    intro k
    simp only [waitLoop]
    cases hr : env.DescribeExportTasks i k with
    | error err =>
      simp only [Sum.inl.injEq, reduceCtorEq, false_implies, implies_true, and_true]
      intro o ho
      exact Stops_single _ _ (by simp [Event.stop?, ho])
    | ok tasks =>
      cases tasks with
      | nil =>
        simp only [Sum.inl.injEq, reduceCtorEq, false_implies, implies_true, and_true]
        intro o ho
        exact Stops_single _ _ (by simp [Event.stop?, ho])
      | cons task rest =>
        simp only
        cases hst : task.Status with
        | none =>
          simp only [Sum.inl.injEq, reduceCtorEq, false_implies, implies_true, and_true]
          intro o ho
          exact Stops_single _ _ (by simp [Event.stop?, ho, hst])
        | some status =>
          have hclean : (Event.DescribeExportTasks TaskId (.ok (task :: rest))).stop? = none := by
            simp [Event.stop?, hst]
          simp only
          split
          · simp only [reduceCtorEq, false_implies, implies_true, Sum.inr.injEq, true_and]
            intro code _ e he
            simp only [List.mem_singleton] at he
            rw [he]; exact hclean
          · obtain ⟨ih1, ih2⟩ := ih (k + 1)
            constructor
            · intro o ho
              exact Stops_cons _ _ _ hclean (Stops_cons _ _ _ (by simp [Event.stop?])
                (Stops_cons _ _ _ (by simp [Event.stop?]) (ih1 o ho)))
            · intro code hc e he
              simp only [List.mem_cons] at he
              rcases he with he | he | he | he
              · rw [he]; exact hclean
              · rw [he]; simp [Event.stop?]
              · rw [he]; simp [Event.stop?]
              · exact ih2 code hc e he

/-! ### The loop body, the loop and the function -/

theorem processGroup_stops (env : Env) (fuel i : Nat) (g : LogGroup) :
    Stops (processGroup env fuel i g).outcome (processGroup env fuel i g).trace := by
  unfold processGroup
  cases hn : g.LogGroupName with
  | none => exact Stops_nil _
  | some name =>
    simp only
    cases ht : env.ListTagsLogGroup i with
    | error err => exact Stops_single _ _ (by simp [Event.stop?])
    | ok tags =>
      simp only
      split
      · cases hs : shortLogGroupName name with
        | none =>
          exact Stops_cons _ _ _ (by simp [Event.stop?]) (Stops_cons _ _ _ (by simp [Event.stop?])
            (Stops_cons _ _ _ (by simp [Event.stop?]) (Stops_nil _)))
        | some short =>
          simp only
          cases hc : env.CreateExportTask i with
          | error err =>
            exact Stops_cons _ _ _ (by simp [Event.stop?]) (Stops_cons _ _ _ (by simp [Event.stop?])
              (Stops_cons _ _ _ (by simp [Event.stop?])
                (Stops_single _ _ (by simp [Event.stop?]))))
          | ok TaskId =>
            simp only
            obtain ⟨w1, w2⟩ := waitLoop_stops env i TaskId fuel 0
            cases hw : (waitLoop env i TaskId fuel 0).1 with
            | inl stop =>
              simp only
              apply Stops_append
              · intro e he
                simp only [List.mem_cons, List.mem_singleton, List.not_mem_nil, or_false] at he
                rcases he with he | he | he | he | he | he <;> rw [he] <;> simp [Event.stop?]
              · exact w1 stop hw
            | inr code =>
              simp only
              rw [List.append_assoc]
              apply Stops_append
              · intro e he
                simp only [List.mem_cons, List.mem_singleton, List.not_mem_nil, or_false] at he
                rcases he with he | he | he | he | he | he <;> rw [he] <;> simp [Event.stop?]
              · apply Stops_append _ _ _ (w2 code hw)
                exact Stops_cons _ _ _ (by simp [Event.stop?])
                  (Stops_cons _ _ _ (by simp [Event.stop?]) (Stops_nil _))
      · exact Stops_single _ _ (by simp [Event.stop?])

theorem sweep_stops (env : Env) (fuel : Nat) : ∀ (groups : List LogGroup) (i : Nat),
    Stops (sweep env fuel i groups).outcome (sweep env fuel i groups).trace := by
  intro groups
  induction groups with
  | nil => intro i; exact Stops_nil _
  | cons g gs ih =>
    intro i
    have hp := processGroup_stops env fuel i g
    simp only [sweep]
    split
    · rename_i hret
      rw [hret] at hp
      exact Stops_append _ _ _ (Stops_returned _ hp) (ih (i + 1))
    · exact hp

theorem CloudwatchS3Export_stops (env : Env) (fuel : Nat) :
    Stops (CloudwatchS3Export env fuel).outcome (CloudwatchS3Export env fuel).trace := by
  unfold CloudwatchS3Export
  cases hc : env.LoadDefaultConfig with
  | error err => exact Stops_single _ _ (by simp [Event.stop?])
  | ok u =>
    simp only
    cases hd : env.DescribeLogGroups with
    | error err =>
      exact Stops_cons _ _ _ (by simp [Event.stop?]) (Stops_single _ _ (by simp [Event.stop?]))
    | ok groups =>
      exact Stops_cons _ _ _ (by simp [Event.stop?]) (Stops_cons _ _ _ (by simp [Event.stop?])
        (sweep_stops env fuel groups 0))

/-! ### Where the `CreateExportTask` calls come from -/

theorem waitLoop_no_create (env : Env) (i : Nat) (TaskId : Option String) :
    ∀ fuel k input resp, Event.CreateExportTask input resp ∉ (waitLoop env i TaskId fuel k).2 := by
  intro fuel
  induction fuel with
  | zero => intro k input resp; simp [waitLoop]
  | succ f ih =>
    intro k input resp
    simp only [waitLoop]
    split
    · simp
    · simp
    · split
      · simp
      · split
        · simp
        · simpa using ih (k + 1) input resp

/-- A `CreateExportTask` call in the processing of group `i` is the call of
line 63, made from the first two clock readings of that group. -/
theorem processGroup_create (env : Env) (fuel i : Nat) (g : LogGroup)
    (input : CreateExportTaskInput) (resp : Result (Option String))
    (h : Event.CreateExportTask input resp ∈ (processGroup env fuel i g).trace) :
    ∃ name short, g.LogGroupName = some name ∧ shortLogGroupName name = some short ∧
      input = exportTaskInput (s3BucketName env) env.Local name short (env.Now i 0) (env.Now i 1) ∧
      resp = env.CreateExportTask i := by
  unfold processGroup at h
  cases hn : g.LogGroupName with
  | none => simp [hn] at h
  | some name =>
    simp only [hn] at h
    cases ht : env.ListTagsLogGroup i with
    | error err => simp [ht] at h
    | ok tags =>
      simp only [ht] at h
      split at h
      · cases hs : shortLogGroupName name with
        | none => simp [hs] at h
        | some short =>
          simp only [hs] at h
          refine ⟨name, short, rfl, hs, ?_⟩
          cases hc : env.CreateExportTask i with
          | error err =>
            simp only [hc] at h
            simp at h
            exact ⟨h.1, h.2⟩
          | ok TaskId =>
            simp only [hc] at h
            have hw := waitLoop_no_create env i TaskId fuel 0 input resp
            split at h
            · simp only [List.mem_append, List.mem_cons, Event.CreateExportTask.injEq,
                reduceCtorEq, List.not_mem_nil, or_false, false_or] at h
              rcases h with h | h
              · exact ⟨h.1, h.2⟩
              · exact absurd h hw
            · simp only [List.mem_append, List.mem_cons, Event.CreateExportTask.injEq,
                reduceCtorEq, List.not_mem_nil, or_false, false_or] at h
              rcases h with h | h
              · exact ⟨h.1, h.2⟩
              · exact absurd h hw
      · simp at h

theorem sweep_create (env : Env) (fuel : Nat) (input : CreateExportTaskInput)
    (resp : Result (Option String)) : ∀ (groups : List LogGroup) (i : Nat),
    Event.CreateExportTask input resp ∈ (sweep env fuel i groups).trace →
    ∃ j name short, groups[j]? = some { LogGroupName := some name } ∧
      shortLogGroupName name = some short ∧
      input = exportTaskInput (s3BucketName env) env.Local name short
        (env.Now (i + j) 0) (env.Now (i + j) 1) ∧
      resp = env.CreateExportTask (i + j) := by
  intro groups
  induction groups with
  | nil => intro i h; simp [sweep] at h
  | cons g gs ih =>
    intro i h
    have here : Event.CreateExportTask input resp ∈ (processGroup env fuel i g).trace →
        ∃ j name short, (g :: gs)[j]? = some { LogGroupName := some name } ∧
          shortLogGroupName name = some short ∧
          input = exportTaskInput (s3BucketName env) env.Local name short
            (env.Now (i + j) 0) (env.Now (i + j) 1) ∧
          resp = env.CreateExportTask (i + j) := by
      intro hm
      obtain ⟨name, short, h1, h2, h3, h4⟩ := processGroup_create env fuel i g input resp hm
      refine ⟨0, name, short, ?_, h2, h3, h4⟩
      cases g
      simp_all
    simp only [sweep] at h
    split at h
    · simp only [List.mem_append] at h
      rcases h with h | h
      · exact here h
      · obtain ⟨j, name, short, h1, h2, h3, h4⟩ := ih (i + 1) h
        refine ⟨j + 1, name, short, by simpa using h1, h2, ?_, ?_⟩
        · rw [h3]; congr 2 <;> omega
        · rw [h4]; congr 1; omega
    · exact here h

/-- Every `CreateExportTask` call of a run is the call of line 63 for one of
the listed groups. -/
theorem CloudwatchS3Export_create (env : Env) (fuel : Nat) (input : CreateExportTaskInput)
    (resp : Result (Option String))
    (h : Event.CreateExportTask input resp ∈ (CloudwatchS3Export env fuel).trace) :
    ∃ groups i name short, env.DescribeLogGroups = .ok groups ∧
      groups[i]? = some { LogGroupName := some name } ∧
      shortLogGroupName name = some short ∧
      input = exportTaskInput (s3BucketName env) env.Local name short
        (env.Now i 0) (env.Now i 1) ∧
      resp = env.CreateExportTask i := by
  unfold CloudwatchS3Export at h
  cases hc : env.LoadDefaultConfig with
  | error err => simp [hc] at h
  | ok u =>
    simp only [hc] at h
    cases hd : env.DescribeLogGroups with
    | error err => simp [hd] at h
    | ok groups =>
      simp only [hd, List.mem_cons, reduceCtorEq, false_or] at h
      obtain ⟨j, name, short, h1, h2, h3, h4⟩ := sweep_create env fuel input resp groups 0 h
      simp only [Nat.zero_add] at h3 h4
      exact ⟨groups, j, name, short, rfl, h1, h2, h3, h4⟩

theorem shortLogGroupName_eq (name : String) : shortLogGroupName name = some (shortName name) := by
  have hsep : ("/" : String).data = ['/'] := rfl
  simp only [shortLogGroupName, shortName, Split, hsep]
  rw [if_neg (by simp)]
  cases h : (splitGo ['/'] name.data 0 []).getLast? with
  | none => exact absurd (List.getLast?_eq_none_iff.mp h) (splitGo_ne_nil _ _ _ _)
  | some s => rfl

theorem waitLoop_final (env : Env) (i : Nat) (TaskId : Option String) :
    ∀ (n j fuel : Nat), (∀ m, m < n → pendingAt env i (j + m) = true) →
      finalAt env i (j + n) = true → n < fuel →
      waitLoop env i TaskId fuel j =
        (.inr ((statusAt env i (j + n)).getD ""), pollEvents env i TaskId j n) := by
  intro n
  induction n with
  | zero =>
    intro j fuel _ hf hfuel
    obtain ⟨f, rfl⟩ : ∃ f, fuel = f + 1 := ⟨fuel - 1, by omega⟩
    simp only [finalAt, statusAt, Nat.add_zero] at hf
    simp only [waitLoop, pollEvents, statusAt, Nat.add_zero]
    cases hr : env.DescribeExportTasks i j with
    | error err => simp [hr] at hf
    | ok tasks =>
      cases tasks with
      | nil => simp [hr] at hf
      | cons task rest =>
        cases hs : task.Status with
        | none => simp [hr, hs] at hf
        | some status =>
          simp only [hr, hs] at hf
          simp [hs, hf]
  | succ n ih =>
    intro j fuel hp hf hfuel
    obtain ⟨f, rfl⟩ : ∃ f, fuel = f + 1 := ⟨fuel - 1, by omega⟩
    have h0 := hp 0 (by omega)
    have hrec := ih (j + 1) f (fun m hm => by have := hp (m + 1) (by omega); rwa [show j + 1 + m = j + (m + 1) by omega])
      (by rwa [show j + 1 + n = j + (n + 1) by omega]) (by omega)
    simp only [pendingAt, statusAt, Nat.add_zero] at h0
    simp only [waitLoop, pollEvents]
    cases hr : env.DescribeExportTasks i j with
    | error err => simp [hr] at h0
    | ok tasks =>
      cases tasks with
      | nil => simp [hr] at h0
      | cons task rest =>
        cases hs : task.Status with
        | none => simp [hr, hs] at h0
        | some status =>
          simp only [hr, hs, Bool.not_eq_true'] at h0
          simp only [hs, h0, Bool.false_eq_true, if_false, hrec]
          rw [show j + 1 + n = j + (n + 1) by omega]

theorem describes_pollEvents (env : Env) (i : Nat) (TaskId : Option String) :
    ∀ n j, describes (pollEvents env i TaskId j n) = List.replicate (n + 1) TaskId := by
  intro n
  induction n with
  | zero => intro j; simp [pollEvents, describes]
  | succ n ih => intro j; simp [pollEvents, describes, ih, List.replicate_succ]

theorem sleeps_pollEvents (env : Env) (i : Nat) (TaskId : Option String) :
    ∀ n j, sleeps (pollEvents env i TaskId j n) = List.replicate n exportCompleteInterval := by
  intro n
  induction n with
  | zero => intro j; simp [pollEvents, sleeps]
  | succ n ih => intro j; simp [pollEvents, sleeps, ih, List.replicate_succ]

theorem creates_pollEvents (env : Env) (i : Nat) (TaskId : Option String) :
    ∀ n j, creates (pollEvents env i TaskId j n) = [] := by
  intro n
  induction n with
  | zero => intro j; simp [pollEvents, creates]
  | succ n ih => intro j; simp [pollEvents, creates, ih]

theorem creates_append (a b : List Event) : creates (a ++ b) = creates a ++ creates b := by
  induction a with
  | nil => rfl
  | cons e es ih => cases e <;> simp [creates, ih]

theorem describes_append (a b : List Event) :
    describes (a ++ b) = describes a ++ describes b := by
  induction a with
  | nil => rfl
  | cons e es ih => cases e <;> simp [describes, ih]

theorem sleeps_append (a b : List Event) : sleeps (a ++ b) = sleeps a ++ sleeps b := by
  induction a with
  | nil => rfl
  | cons e es ih => cases e <;> simp [sleeps, ih]

/-- The processing of a group without the key: one `ListTagsLogGroup` call. -/
theorem processGroup_skipped (env : Env) (fuel i : Nat) (name : String)
    (tags : List (String × String)) (ht : env.ListTagsLogGroup i = .ok tags)
    (hk : hasExportLogs tags = false) :
    processGroup env fuel i { LogGroupName := some name } =
      { outcome := .returned, trace := [Event.ListTagsLogGroup name (.ok tags)] } := by
  simp only [hasExportLogs] at hk
  simp [processGroup, ht, hk]

/-- The processing of a selected group whose task reaches a final status. -/
theorem processGroup_selected (env : Env) (fuel i : Nat) (name : String)
    (tags : List (String × String)) (TaskId : Option String) (k : Nat)
    (ht : env.ListTagsLogGroup i = .ok tags) (hk : hasExportLogs tags = true)
    (hc : env.CreateExportTask i = .ok TaskId) (hf : FirstFinalAt env i k) (hfuel : k < fuel) :
    processGroup env fuel i { LogGroupName := some name } =
      { outcome := .returned, trace := groupEvents env i name TaskId k } := by
  simp only [hasExportLogs] at hk
  have hw := waitLoop_final env i TaskId k 0 fuel (by simpa using hf.1) (by simpa using hf.2) hfuel
  simp only [Nat.zero_add] at hw
  simp [processGroup, ht, hk, shortLogGroupName_eq, hc, hw, groupEvents]

theorem midnight_date_range (abs : Nat)
    (h1 : 9223372028715321600 - 9100000000000000 ≤ abs)
    (h2 : abs ≤ 9223372028715321600 + 9100000000000000) :
    (ofUnixMilli (Date (absDate abs).year (absDate abs).month (absDate abs).day
      0 0 0 0).UnixMilli).Date UTC = absDate abs := by
  have hu : unixToInternal = 62135596800 := by decide
  rw [midnight_UnixMilli abs h1 h2]
  simp only [Time.Date]
  apply absDate_congr
  have ha : ((Time.abs (ofUnixMilli ((((abs / 86400 * 86400 : Nat) : Int) - 9223372028715321600)
      * 1000)) UTC : Nat) : Int) = ((abs / 86400 * 86400 : Nat) : Int) := by
    simp only [Time.abs, ofUnixMilli, UTC, internalToAbsolute, absoluteToInternal, hu]
    rw [toUint64_of_range _ (by omega) (by omega)]
    omega
  omega

theorem yesterday_abs_range (loc : Location) (t : Time) (hv : t.valid) (hz : loc.bounded) :
    9223372028715321600 - 9100000000000000 ≤ (t.Add (-24 * Hour)).abs loc ∧
    (t.Add (-24 * Hour)).abs loc ≤ 9223372028715321600 + 9100000000000000 ∧
    (0 ≤ t.sec → 9223372028715321600 - 186400 ≤ (t.Add (-24 * Hour)).abs loc) := by
  have hv' := hv
  obtain ⟨v1, v2, v3, v4⟩ := hv'
  obtain ⟨z1, z2⟩ := hz (t.sec - 86400)
  rw [Add_day t hv]
  have ha := abs_of_range ⟨t.sec - 86400, t.nsec⟩ loc (by simp only; omega) (by simp only; omega)
    z1 z2
  simp only at ha
  omega

theorem formatInt_no_leading_zero (n : Int) (h1 : 1 ≤ n) (h2 : n ≤ 31) :
    (formatInt n).data.head? ≠ some '0' := by
  interval_cases n <;> decide

theorem formatInt_no_minus (i : Int) (h : 0 ≤ i) : '-' ∉ (formatInt i).data := by
  intro hm
  have := formatInt_digits i h _ hm
  exact absurd this (by decide)

/-- A date text splits on `-` into its three numbers when the year is not negative. -/
theorem Split_Sprintf (y m d : Int) (hy : 0 ≤ y) (hm : 0 ≤ m) (hd : 0 ≤ d) :
    Split (Sprintf y m d) "-" = [formatInt y, formatInt m, formatInt d] := by
  have hsep : ("-" : String).data = ['-'] := rfl
  have hdata : (Sprintf y m d).data =
      (formatInt y).data ++ '-' :: ((formatInt m).data ++ '-' :: (formatInt d).data) := by
    simp [Sprintf, String.data_append, hsep]
  simp only [Split, hsep, hdata]
  rw [if_neg (by simp), splitGo_first _ _ _ _ (formatInt_no_minus y hy),
    splitGo_first _ _ _ _ (formatInt_no_minus m hm), splitGo_none _ _ _ (formatInt_no_minus d hd)]
  simp

theorem CloudwatchS3Export_ok (env : Env) (fuel : Nat) (groups : List LogGroup)
    (hc : env.LoadDefaultConfig = .ok ()) (hd : env.DescribeLogGroups = .ok groups) :
    CloudwatchS3Export env fuel =
      { outcome := (sweep env fuel 0 groups).outcome,
        trace := Event.LoadDefaultConfig (.ok ()) :: Event.DescribeLogGroups 50 (.ok groups) ::
          (sweep env fuel 0 groups).trace } := by
  simp [CloudwatchS3Export, hc, hd]

theorem sweep_cons_returned (env : Env) (fuel i : Nat) (g : LogGroup) (gs : List LogGroup)
    (h : (processGroup env fuel i g).outcome = .returned) :
    sweep env fuel i (g :: gs) =
      { outcome := (sweep env fuel (i + 1) gs).outcome,
        trace := (processGroup env fuel i g).trace ++ (sweep env fuel (i + 1) gs).trace } := by
  simp [sweep, h]

theorem sweep_cons_stopped (env : Env) (fuel i : Nat) (g : LogGroup) (gs : List LogGroup)
    (h : (processGroup env fuel i g).outcome ≠ .returned) :
    sweep env fuel i (g :: gs) = processGroup env fuel i g := by
  cases hr : (processGroup env fuel i g).outcome with
  | returned => exact absurd hr h
  | fatal err => simp [sweep, hr]
  | panic msg => simp [sweep, hr]
  | polling => simp [sweep, hr]

theorem creates_groupEvents (env : Env) (i : Nat) (name : String) (TaskId : Option String)
    (k : Nat) :
    creates (groupEvents env i name TaskId k) =
      [exportTaskInput (s3BucketName env) env.Local name (shortName name) (env.Now i 0)
        (env.Now i 1)] := by
  simp [groupEvents, creates_append, creates, creates_pollEvents]

/-- C1: with the clock in UTC, every create-export-task call of a run belongs to
a listed group, and when the clock readings of lines 53 and 56 for that group
are one instant `now`, the call carries
`to = 86400000 * floor(now / 86400000)` and
`from = 86400000 * floor((now - 86400000) / 86400000)`, with `now` in
milliseconds since the epoch. -/
theorem export_window_of_single_instant (env : Env) (fuel : Nat)
    (input : CreateExportTaskInput) (resp : Result (Option String))
    (hUTC : env.Local = UTC)
    (h : Event.CreateExportTask input resp ∈ (CloudwatchS3Export env fuel).trace) :
    ∃ groups i name, env.DescribeLogGroups = .ok groups ∧
      groups[i]? = some { LogGroupName := some name } ∧ input.LogGroupName = some name ∧
      ∀ now : Time, now.valid → env.Now i 0 = now → env.Now i 1 = now →
        input.To = some (86400000 * (now.UnixMilli / 86400000)) ∧
        input.From = some (86400000 * ((now.UnixMilli - 86400000) / 86400000)) := by
  obtain ⟨groups, i, name, short, h1, h2, _, h4, _⟩ := CloudwatchS3Export_create env fuel input resp h
  refine ⟨groups, i, name, h1, h2, by rw [h4]; rfl, ?_⟩
  intro now hv e0 e1
  rw [h4, hUTC, e0, e1]
  simp only [exportTaskInput, toDate_UTC now hv, fromDate_UTC now hv, and_self]

/-- Witness for C1: scenario S2, whose clock is fixed at 2024-03-15T10:00:00Z. -/
theorem export_window_of_single_instant_witness :
    ∃ groups i name, (envS2 "export-bucket").DescribeLogGroups = .ok groups ∧
      groups[i]? = some { LogGroupName := some name } ∧ some "/svc/api" = some name ∧
      ∀ now : Time, now.valid → (envS2 "export-bucket").Now i 0 = now →
        (envS2 "export-bucket").Now i 1 = now →
        some (1710460800000 : Int) = some (86400000 * (now.UnixMilli / 86400000)) ∧
        some (1710374400000 : Int) =
          some (86400000 * ((now.UnixMilli - 86400000) / 86400000)) :=
  export_window_of_single_instant (envS2 "export-bucket") 2
    { Destination := some "export-bucket", From := some 1710374400000,
      LogGroupName := some "/svc/api", To := some 1710460800000,
      DestinationPrefix := some "2024-3-14", TaskName := some "api-2024-3-14" }
    (.ok (some "task-0")) rfl (by decide)

/-- C2, as stated, fails: in scenario S2 the create-export-task call does not
carry `from = 1710288000000` and `to = 1710374400000`. -/
theorem S2_stated_literals_fail :
    creates (CloudwatchS3Export (envS2 "export-bucket") 2).trace ≠
      [{ Destination := some "export-bucket", From := some 1710288000000,
         LogGroupName := some "/svc/api", To := some 1710374400000,
         DestinationPrefix := some "2024-3-14", TaskName := some "api-2024-3-14" }] := by
  decide

/-- C2, amended: in scenario S2, whatever the bucket and with fuel for the two
polls, the run returns with exactly one create-export-task call, with
`from = 1710374400000` (2024-03-14 00:00 UTC), `to = 1710460800000`
(2024-03-15 00:00 UTC), prefix `2024-3-14`, task name `api-2024-3-14` and the
configured bucket as destination. -/
theorem S2_literals (bucket : String) (fuel : Nat) :
    (CloudwatchS3Export (envS2 bucket) (fuel + 2)).outcome = .returned ∧
    creates (CloudwatchS3Export (envS2 bucket) (fuel + 2)).trace =
      [{ Destination := some bucket, From := some 1710374400000,
         LogGroupName := some "/svc/api", To := some 1710460800000,
         DestinationPrefix := some "2024-3-14", TaskName := some "api-2024-3-14" }] := by
  have hf : FirstFinalAt (envS2 bucket) 0 1 :=
    ⟨fun j hj => by interval_cases j; rfl, rfl⟩
  have hp := processGroup_selected (envS2 bucket) (fuel + 2) 0 "/svc/api"
    [("ExportLogs", "yes")] (some "task-0") 1 rfl rfl rfl hf (by omega)
  have hs := sweep_cons_returned (envS2 bucket) (fuel + 2) 0 { LogGroupName := some "/svc/api" }
    [] (by rw [hp])
  have hrun := CloudwatchS3Export_ok (envS2 bucket) (fuel + 2)
    [{ LogGroupName := some "/svc/api" }] rfl rfl
  rw [hrun, hs, hp]
  refine ⟨rfl, ?_⟩
  have e1 : fromDate UTC { sec := 1710496800, nsec := 0 } = 1710374400000 := by decide
  have e2 : toDate UTC { sec := 1710496800, nsec := 0 } = 1710460800000 := by decide
  have e3 : logDate UTC { sec := 1710496800, nsec := 0 } = "2024-3-14" := by decide
  have e4 : shortName "/svc/api" = "api" := by decide
  have e5 : s3BucketName (envS2 bucket) = bucket := rfl
  have e6 : (envS2 bucket).Local = UTC := rfl
  have e7 : ∀ i k, (envS2 bucket).Now i k = { sec := 1710496800, nsec := 0 } := fun _ _ => rfl
  simp only [sweep, List.append_nil, creates, creates_groupEvents, exportTaskInput, e5, e6, e7,
    e1, e2, e3, e4]
  rfl

/-- C6 at the failing input: when the reading of line 53 is just before
midnight UTC and the reading of line 56 just after, the one create-export-task
call has a window of 48 hours, from 2024-03-13 00:00 UTC to 2024-03-15 00:00 UTC. -/
theorem window_across_midnight :
    (creates (CloudwatchS3Export envMidnight 1).trace).map (fun c => (c.From, c.To)) =
      [(some 1710288000000, some 1710460800000)] ∧
    (1710460800000 : Int) - 1710288000000 = 2 * 86400000 := by
  decide

/-- C7: for clock readings in range and a local zone within 100000 seconds of
UTC, every create-export-task call has a `from`, and with (year, month, day)
the UTC date of that instant its prefix is year, month and day in decimal
joined by `-`; month is in [1,12] and day in [1,31], neither starts with `0`,
and, the year not being negative, the prefix splits on `-` into exactly these
three numbers, all of digits. -/
theorem date_prefix_of_from (env : Env) (fuel : Nat)
    (input : CreateExportTaskInput) (resp : Result (Option String))
    (hclock : ∀ i k, (env.Now i k).valid) (hzone : env.Local.bounded)
    (h : Event.CreateExportTask input resp ∈ (CloudwatchS3Export env fuel).trace) :
    ∃ (fromMs : Int) (date : String), input.From = some fromMs ∧
      input.DestinationPrefix = some date ∧
      date = formatInt ((ofUnixMilli fromMs).Date UTC).year ++ "-" ++
        formatInt ((ofUnixMilli fromMs).Date UTC).month ++ "-" ++
        formatInt ((ofUnixMilli fromMs).Date UTC).day ∧
      1 ≤ ((ofUnixMilli fromMs).Date UTC).month ∧ ((ofUnixMilli fromMs).Date UTC).month ≤ 12 ∧
      1 ≤ ((ofUnixMilli fromMs).Date UTC).day ∧ ((ofUnixMilli fromMs).Date UTC).day ≤ 31 ∧
      (formatInt ((ofUnixMilli fromMs).Date UTC).month).data.head? ≠ some '0' ∧
      (formatInt ((ofUnixMilli fromMs).Date UTC).day).data.head? ≠ some '0' ∧
      (0 ≤ ((ofUnixMilli fromMs).Date UTC).year →
        Split date "-" = [formatInt ((ofUnixMilli fromMs).Date UTC).year,
          formatInt ((ofUnixMilli fromMs).Date UTC).month,
          formatInt ((ofUnixMilli fromMs).Date UTC).day] ∧
        ∀ part ∈ Split date "-", ∀ ch ∈ part.data, ch.isDigit = true) ∧
      ((∀ i k, 0 ≤ (env.Now i k).sec) → 0 ≤ ((ofUnixMilli fromMs).Date UTC).year) := by
  obtain ⟨groups, i, name, short, _, _, _, h4, _⟩ :=
    CloudwatchS3Export_create env fuel input resp h
  obtain ⟨r1, r2, r3⟩ := yesterday_abs_range env.Local (env.Now i 0) (hclock i 0) hzone
  have hdate := midnight_date_range _ r1 r2
  have hyr : (∀ i k, 0 ≤ (env.Now i k).sec) →
      0 ≤ (absDate ((env.Now i 0).Add (-24 * Hour) |>.abs env.Local)).year := fun hpos =>
    absDate_year_nonneg _ (by omega) (by have := r3 (hpos i 0); omega)
  obtain ⟨_, m1, m2, d1, d2⟩ := Date_absDate ((env.Now i 0).Add (-24 * Hour) |>.abs env.Local)
    (by omega)
  refine ⟨fromDate env.Local (env.Now i 0), logDate env.Local (env.Now i 0),
    by rw [h4]; rfl, by rw [h4]; rfl, ?_⟩
  simp only [fromDate, logDate, yesterday, Time.Date] at hdate ⊢
  rw [hdate]
  generalize absDate ((env.Now i 0).Add (-24 * Hour) |>.abs env.Local) = cd at m1 m2 d1 d2 hyr ⊢
  refine ⟨rfl, m1, m2, d1, d2, formatInt_no_leading_zero _ m1 (by omega),
    formatInt_no_leading_zero _ d1 d2, ?_, hyr⟩
  intro hy
  have hsplit : Split (Sprintf cd.year cd.month cd.day) "-" =
      [formatInt cd.year, formatInt cd.month, formatInt cd.day] :=
    Split_Sprintf cd.year cd.month cd.day hy (by omega) (by omega)
  constructor
  · exact hsplit
  · intro part hp ch hc
    rw [hsplit] at hp
    simp only [List.mem_cons, List.mem_singleton, List.not_mem_nil, or_false] at hp
    rcases hp with hp | hp | hp <;> subst hp
    · exact formatInt_digits _ hy ch hc
    · exact formatInt_digits _ (by omega) ch hc
    · exact formatInt_digits _ (by omega) ch hc

/-- Witness for C7: scenario S2. -/
theorem date_prefix_of_from_witness :
    ∃ (fromMs : Int) (date : String), some (1710374400000 : Int) = some fromMs ∧
      some "2024-3-14" = some date ∧
      date = formatInt ((ofUnixMilli fromMs).Date UTC).year ++ "-" ++
        formatInt ((ofUnixMilli fromMs).Date UTC).month ++ "-" ++
        formatInt ((ofUnixMilli fromMs).Date UTC).day ∧
      1 ≤ ((ofUnixMilli fromMs).Date UTC).month ∧ ((ofUnixMilli fromMs).Date UTC).month ≤ 12 ∧
      1 ≤ ((ofUnixMilli fromMs).Date UTC).day ∧ ((ofUnixMilli fromMs).Date UTC).day ≤ 31 ∧
      (formatInt ((ofUnixMilli fromMs).Date UTC).month).data.head? ≠ some '0' ∧
      (formatInt ((ofUnixMilli fromMs).Date UTC).day).data.head? ≠ some '0' ∧
      (0 ≤ ((ofUnixMilli fromMs).Date UTC).year →
        Split date "-" = [formatInt ((ofUnixMilli fromMs).Date UTC).year,
          formatInt ((ofUnixMilli fromMs).Date UTC).month,
          formatInt ((ofUnixMilli fromMs).Date UTC).day] ∧
        ∀ part ∈ Split date "-", ∀ ch ∈ part.data, ch.isDigit = true) ∧
      ((∀ i k, 0 ≤ ((envS2 "export-bucket").Now i k).sec) →
        0 ≤ ((ofUnixMilli fromMs).Date UTC).year) :=
  date_prefix_of_from (envS2 "export-bucket") 2
    { Destination := some "export-bucket", From := some 1710374400000,
      LogGroupName := some "/svc/api", To := some 1710460800000,
      DestinationPrefix := some "2024-3-14", TaskName := some "api-2024-3-14" }
    (.ok (some "task-0"))
    (fun _ _ => (by decide : Time.valid { sec := 1710496800, nsec := 0 }))
    (fun _ => (by decide : (-100000 : Int) ≤ 0 ∧ (0 : Int) ≤ 100000)) (by decide)

theorem getLast?_append_cons {α : Type} (pre : List α) (x : α) (l : List α) :
    (pre ++ x :: l).getLast? = (x :: l).getLast? := by
  induction pre with
  | nil => rfl
  | cons p ps ih => rw [List.cons_append, getLast?_cons_ne _ _ (by simp), ih]

/-- The last piece of a name is its longest suffix without `/`. -/
theorem shortName_spec (name : String) :
    '/' ∉ (shortName name).data ∧
    (shortName name = name ∨ ∃ pre, name.data = pre ++ '/' :: (shortName name).data) := by
  have hsep : ("/" : String).data = ['/'] := rfl
  obtain ⟨s, h1, h2, h3⟩ := splitGo_last name.data [] (by simp)
  have hs : shortName name = String.mk s := by
    simp only [shortName, Split, hsep]
    rw [if_neg (by simp), h1]
    rfl
  rw [hs]
  refine ⟨h2, ?_⟩
  rcases h3 with h3 | ⟨pre, h3⟩
  · left
    simp only [List.reverse_nil, List.nil_append] at h3
    rw [h3]
  · right
    exact ⟨pre, by simpa using h3⟩

/-- C8: every create-export-task call has a group name `n` and a prefix, and
its task name is `s ++ "-" ++` the prefix, where `s` has no `/` and is `n`
itself or what follows the last `/` of `n`: so `s = n` when `n` has no `/` and
`s` is empty when `n` ends in `/`. In scenario S3 (name `flat`, clock
2024-01-05T00:30:00Z) the prefix is `2024-1-4` and the task name `flat-2024-1-4`. -/
theorem task_name_of_group (env : Env) (fuel : Nat)
    (input : CreateExportTaskInput) (resp : Result (Option String))
    (h : Event.CreateExportTask input resp ∈ (CloudwatchS3Export env fuel).trace) :
    (∃ (n s date : String), input.LogGroupName = some n ∧ input.DestinationPrefix = some date ∧
      input.TaskName = some (s ++ "-" ++ date) ∧ '/' ∉ s.data ∧
      (s = n ∨ ∃ pre, n.data = pre ++ '/' :: s.data) ∧
      ('/' ∉ n.data → s = n) ∧
      (n.data.getLast? = some '/' → s = "")) ∧
    (creates (CloudwatchS3Export envS3 1).trace).map
        (fun c => (c.LogGroupName, c.DestinationPrefix, c.TaskName)) =
      [(some "flat", some "2024-1-4", some "flat-2024-1-4")] := by
  refine ⟨?_, by decide⟩
  obtain ⟨groups, i, name, short, _, _, h3, h4, _⟩ :=
    CloudwatchS3Export_create env fuel input resp h
  have hshort : short = shortName name := by
    have := shortLogGroupName_eq name
    rw [h3] at this
    exact Option.some.inj this
  obtain ⟨s1, s2⟩ := shortName_spec name
  refine ⟨name, short, logDate env.Local (env.Now i 0), by rw [h4]; rfl, by rw [h4]; rfl,
    by rw [h4]; rfl, hshort ▸ s1, hshort ▸ s2, ?_, ?_⟩
  · intro hno
    rw [hshort]
    rcases s2 with s2 | ⟨pre, s2⟩
    · exact s2
    · exact absurd (by rw [s2]; simp) hno
  · intro hlast
    rw [hshort]
    rcases s2 with s2 | ⟨pre, s2⟩
    · rw [s2] at s1
      exact absurd (List.mem_of_mem_getLast? hlast) s1
    · cases hd : (shortName name).data with
      | nil => exact String.ext hd
      | cons c cs =>
        rw [s2, hd] at hlast
        have hmem : '/' ∈ (shortName name).data := by
          rw [hd]
          have hl : (c :: cs).getLast? = some '/' := by
            rw [← hlast, getLast?_append_cons, getLast?_cons_ne _ _ (List.cons_ne_nil c cs)]
          exact List.mem_of_mem_getLast? hl
        exact absurd hmem s1

/-- Witness for C8: scenario S3. -/
theorem task_name_of_group_witness :
    (∃ (n s date : String), some "flat" = some n ∧ some "2024-1-4" = some date ∧
      some "flat-2024-1-4" = some (s ++ "-" ++ date) ∧ '/' ∉ s.data ∧
      (s = n ∨ ∃ pre, n.data = pre ++ '/' :: s.data) ∧
      ('/' ∉ n.data → s = n) ∧
      (n.data.getLast? = some '/' → s = "")) ∧
    (creates (CloudwatchS3Export envS3 1).trace).map
        (fun c => (c.LogGroupName, c.DestinationPrefix, c.TaskName)) =
      [(some "flat", some "2024-1-4", some "flat-2024-1-4")] :=
  task_name_of_group envS3 1
    { Destination := some "export-bucket", From := some 1704326400000,
      LogGroupName := some "flat", To := some 1704412800000,
      DestinationPrefix := some "2024-1-4", TaskName := some "flat-2024-1-4" }
    (.ok (some "task-0")) (by decide)

theorem sweep_complete (env : Env) : ∀ (groups : List LogGroup) (i : Nat),
    (∀ j g, groups[j]? = some g → ∃ name tags, g.LogGroupName = some name ∧
      env.ListTagsLogGroup (i + j) = .ok tags ∧
      (hasExportLogs tags = true →
        (∃ TaskId, env.CreateExportTask (i + j) = .ok TaskId) ∧
        ∃ k, FirstFinalAt env (i + j) k)) →
    ∃ F, ∀ fuel, F ≤ fuel → (sweep env fuel i groups).outcome = .returned ∧
      (creates (sweep env fuel i groups).trace).map (fun c => c.LogGroupName) =
        selectedNames env i groups := by
  intro groups
  induction groups with
  | nil => intro i _; exact ⟨0, fun fuel _ => by simp [sweep, creates, selectedNames]⟩
  | cons g gs ih =>
    intro i h
    obtain ⟨F, hF⟩ := ih (i + 1) (fun j g' hj => by
      have := h (j + 1) g' (by simpa using hj)
      rwa [show i + (j + 1) = i + 1 + j by omega] at this)
    obtain ⟨name, tags, hn, ht, hsel⟩ := h 0 g (by simp)
    simp only [Nat.add_zero] at ht hsel
    obtain ⟨gname⟩ := g
    simp only at hn
    subst hn
    cases hk : hasExportLogs tags with
    | false =>
      refine ⟨F, fun fuel hfuel => ?_⟩
      have hp := processGroup_skipped env fuel i name tags ht hk
      obtain ⟨h1, h2⟩ := hF fuel hfuel
      rw [sweep_cons_returned _ _ _ _ _ (by rw [hp])]
      simp only [hp, creates_append, creates, List.nil_append, selectedNames, isSelected, ht, hk]
      exact ⟨h1, h2⟩
    | true =>
      obtain ⟨⟨TaskId, hc⟩, k, hf⟩ := hsel hk
      refine ⟨max F (k + 1), fun fuel hfuel => ?_⟩
      have hp := processGroup_selected env fuel i name tags TaskId k ht hk hc hf (by omega)
      obtain ⟨h1, h2⟩ := hF fuel (by omega)
      rw [sweep_cons_returned _ _ _ _ _ (by rw [hp])]
      simp only [hp, creates_append, creates_groupEvents, selectedNames, isSelected, ht, hk,
        List.map_append, List.map_cons, List.map_nil, List.singleton_append, if_true]
      exact ⟨h1, by rw [h2]; rfl⟩

/-- C3: when the configuration loads, the list call returns `groups`, every
listed group has a name and its tags are returned, and for every group with
the key `ExportLogs` the create call succeeds and the describe responses reach
a first final status (COMPLETED, CANCELLED or FAILED), then with enough fuel
the run returns and the group names of its create-export-task calls are, in
order, exactly the names of the listed groups that have the key. -/
theorem selection_by_tag (env : Env) (groups : List LogGroup)
    (hcfg : env.LoadDefaultConfig = .ok ()) (hlist : env.DescribeLogGroups = .ok groups)
    (hresp : ∀ i g, groups[i]? = some g → ∃ name tags, g.LogGroupName = some name ∧
      env.ListTagsLogGroup i = .ok tags ∧
      (hasExportLogs tags = true →
        (∃ TaskId, env.CreateExportTask i = .ok TaskId) ∧ ∃ k, FirstFinalAt env i k)) :
    ∃ F, ∀ fuel, F ≤ fuel → (CloudwatchS3Export env fuel).outcome = .returned ∧
      (creates (CloudwatchS3Export env fuel).trace).map (fun c => c.LogGroupName) =
        selectedNames env 0 groups := by
  obtain ⟨F, hF⟩ := sweep_complete env groups 0 (fun j g hj => by
    simpa using hresp j g hj)
  refine ⟨F, fun fuel hfuel => ?_⟩
  rw [CloudwatchS3Export_ok env fuel groups hcfg hlist]
  simpa [creates] using hF fuel hfuel

/-- Witness for C3: in scenario S4 with a group to skip, the
first task ends FAILED, the second group has no tag, and the create calls are
those for `/svc/a` and `/svc/b`. -/
theorem selection_by_tag_witness :
    ∃ F, ∀ fuel, F ≤ fuel → (CloudwatchS3Export envS4 fuel).outcome = .returned ∧
      (creates (CloudwatchS3Export envS4 fuel).trace).map (fun c => c.LogGroupName) =
        selectedNames envS4 0
          [{ LogGroupName := some "/svc/a" }, { LogGroupName := some "/svc/skip" },
           { LogGroupName := some "/svc/b" }] :=
  selection_by_tag envS4 _ rfl rfl (by
    intro i g h
    rcases i with _ | _ | _ | i
    · obtain rfl : g = { LogGroupName := some "/svc/a" } := by simpa using h.symm
      exact ⟨_, _, rfl, rfl, fun _ => ⟨⟨_, rfl⟩, 1, by decide⟩⟩
    · obtain rfl : g = { LogGroupName := some "/svc/skip" } := by simpa using h.symm
      exact ⟨_, _, rfl, rfl, fun hk => absurd hk (by decide)⟩
    · obtain rfl : g = { LogGroupName := some "/svc/b" } := by simpa using h.symm
      exact ⟨_, _, rfl, rfl, fun _ => ⟨⟨_, rfl⟩, 0, by decide⟩⟩
    · simp [envS4, scenario] at h)

/-! ### The bucket name -/

theorem waitLoop_withBucket (env : Env) (bucket : String) (i : Nat) (TaskId : Option String) :
    ∀ fuel k, waitLoop (env.withBucket bucket) i TaskId fuel k = waitLoop env i TaskId fuel k := by
  intro fuel
  induction fuel with
  | zero => intro k; rfl
  | succ f ih =>
    intro k
    simp only [waitLoop, ih]
    rfl

theorem waitLoop_withDestination (env : Env) (bucket : String) (i : Nat)
    (TaskId : Option String) : ∀ fuel k,
    (waitLoop env i TaskId fuel k).2.map (Event.withDestination bucket) =
      (waitLoop env i TaskId fuel k).2 := by
  intro fuel
  induction fuel with
  | zero => intro k; rfl
  | succ f ih =>
    intro k
    simp only [waitLoop]
    split
    · rfl
    · rfl
    · split
      · rfl
      · split
        · rfl
        · simp [Event.withDestination, ih]

theorem processGroup_withBucket (env : Env) (bucket : String) (fuel i : Nat) (g : LogGroup) :
    processGroup (env.withBucket bucket) fuel i g =
      { outcome := (processGroup env fuel i g).outcome,
        trace := (processGroup env fuel i g).trace.map (Event.withDestination bucket) } := by
  have hb : s3BucketName (env.withBucket bucket) = bucket := by
    simp [s3BucketName, Env.withBucket]
  have hl : (env.withBucket bucket).Local = env.Local := rfl
  have ht : (env.withBucket bucket).ListTagsLogGroup = env.ListTagsLogGroup := rfl
  have hc : (env.withBucket bucket).CreateExportTask = env.CreateExportTask := rfl
  have hn : (env.withBucket bucket).Now = env.Now := rfl
  unfold processGroup
  simp only [hb, hl, ht, hc, hn, waitLoop_withBucket]
  cases g.LogGroupName with
  | none => rfl
  | some name =>
    simp only
    cases env.ListTagsLogGroup i with
    | error err => rfl
    | ok tags =>
      simp only
      split
      · cases shortLogGroupName name with
        | none => rfl
        | some short =>
          simp only
          cases env.CreateExportTask i with
          | error err => rfl
          | ok TaskId =>
            simp only
            have hw := waitLoop_withDestination env bucket i TaskId fuel 0
            cases hres : (waitLoop env i TaskId fuel 0).1 with
            | inl stop =>
              simp only [List.map_append, hw]
              rfl
            | inr code =>
              simp only [List.map_append, hw]
              rfl
      · rfl

theorem sweep_withBucket (env : Env) (bucket : String) (fuel : Nat) :
    ∀ (groups : List LogGroup) (i : Nat),
    sweep (env.withBucket bucket) fuel i groups =
      { outcome := (sweep env fuel i groups).outcome,
        trace := (sweep env fuel i groups).trace.map (Event.withDestination bucket) } := by
  intro groups
  induction groups with
  | nil => intro i; rfl
  | cons g gs ih =>
    intro i
    simp only [sweep, processGroup_withBucket, ih]
    cases h : (processGroup env fuel i g).outcome <;> simp [h]

theorem CloudwatchS3Export_withBucket (env : Env) (bucket : String) (fuel : Nat) :
    CloudwatchS3Export (env.withBucket bucket) fuel =
      { outcome := (CloudwatchS3Export env fuel).outcome,
        trace := (CloudwatchS3Export env fuel).trace.map (Event.withDestination bucket) } := by
  have hc : (env.withBucket bucket).LoadDefaultConfig = env.LoadDefaultConfig := rfl
  have hd : (env.withBucket bucket).DescribeLogGroups = env.DescribeLogGroups := rfl
  unfold CloudwatchS3Export
  simp only [hc, hd, sweep_withBucket]
  cases env.LoadDefaultConfig with
  | error err => rfl
  | ok u =>
    cases env.DescribeLogGroups with
    | error err => rfl
    | ok groups => rfl

theorem withDestination_withDestination (a b : String) (e : Event) :
    Event.withDestination a (Event.withDestination b e) = Event.withDestination a e := by
  cases e <;> rfl

/-- C4, as stated, fails: with `S3_BUCKET_NAME` unset, the run of scenario S2
makes the list call, returns, and its create-export-task call has the empty
destination. -/
theorem no_bucket_is_not_fatal :
    (CloudwatchS3Export envNoBucket 2).outcome = .returned ∧
    Event.DescribeLogGroups 50 envNoBucket.DescribeLogGroups ∈
      (CloudwatchS3Export envNoBucket 2).trace ∧
    (creates (CloudwatchS3Export envNoBucket 2).trace).map (fun c => c.Destination) =
      [some ""] := by
  decide

/-- C4, amended: the bucket name is not checked. A run with `S3_BUCKET_NAME`
empty (or unset) ends as the run with any other value does and makes the same
calls in the same order, the destination of the create-export-task calls
apart, which is the empty string in every one of them. -/
theorem empty_bucket_runs_alike (env : Env) (bucket : String) (fuel : Nat) :
    (CloudwatchS3Export (env.withBucket "") fuel).outcome =
      (CloudwatchS3Export (env.withBucket bucket) fuel).outcome ∧
    (CloudwatchS3Export (env.withBucket "") fuel).trace =
      (CloudwatchS3Export (env.withBucket bucket) fuel).trace.map (Event.withDestination "") ∧
    (creates (CloudwatchS3Export (env.withBucket "") fuel).trace).all
      (fun c => c.Destination == some "") = true := by
  rw [CloudwatchS3Export_withBucket env "", CloudwatchS3Export_withBucket env bucket]
  refine ⟨rfl, ?_, ?_⟩
  · simp only [List.map_map]
    apply List.map_congr_left
    intro e _
    exact (withDestination_withDestination "" bucket e).symm
  · simp only
    generalize (CloudwatchS3Export env fuel).trace = tr
    induction tr with
    | nil => rfl
    | cons e es ih => cases e <;> simp_all [Event.withDestination, creates]

/-- C5: in every run, a list-groups, list-tags, create or describe call that
returns an error is the last event of the trace and the run ends with
`log.Fatal` of that error. In scenario S5 (three listed groups, the first
selected and its task reaching a final status, `ListTagsLogGroup` failing for
the second) the run ends fatally with the trace of the first group followed by
the failed call alone, and has exactly one create call. -/
theorem abort_on_first_error (env : Env) (fuel : Nat) :
    (∀ pre e post err, (CloudwatchS3Export env fuel).trace = pre ++ e :: post →
      e.err? = some err →
      post = [] ∧ (CloudwatchS3Export env fuel).outcome = .fatal err) ∧
    (∀ (n0 n1 : String) (g2 : LogGroup) (tags : List (String × String))
      (TaskId : Option String) (k : Nat) (err : String),
      env.LoadDefaultConfig = .ok () →
      env.DescribeLogGroups =
        .ok [{ LogGroupName := some n0 }, { LogGroupName := some n1 }, g2] →
      env.ListTagsLogGroup 0 = .ok tags → hasExportLogs tags = true →
      env.CreateExportTask 0 = .ok TaskId → FirstFinalAt env 0 k → k < fuel →
      env.ListTagsLogGroup 1 = .error err →
      (CloudwatchS3Export env fuel).outcome = .fatal err ∧
      (CloudwatchS3Export env fuel).trace =
        Event.LoadDefaultConfig (.ok ()) ::
          Event.DescribeLogGroups 50 env.DescribeLogGroups ::
          (groupEvents env 0 n0 TaskId k ++ [Event.ListTagsLogGroup n1 (.error err)]) ∧
      creates (CloudwatchS3Export env fuel).trace =
        [exportTaskInput (s3BucketName env) env.Local n0 (shortName n0) (env.Now 0 0)
          (env.Now 0 1)]) := by
  constructor
  · intro pre e post err hsplit herr
    obtain ⟨h1, h2⟩ := CloudwatchS3Export_stops env fuel pre e post (.fatal err) hsplit
      (err?_stop? e err herr)
    exact ⟨h1, h2⟩
  · intro n0 n1 g2 tags TaskId k err hcfg hlist ht hk hc hf hfuel hfail
    have hp := processGroup_selected env fuel 0 n0 tags TaskId k ht hk hc hf hfuel
    have hq : processGroup env fuel 1 { LogGroupName := some n1 } =
        { outcome := .fatal err, trace := [Event.ListTagsLogGroup n1 (.error err)] } := by
      simp [processGroup, hfail]
    have hs1 := sweep_cons_stopped env fuel 1 { LogGroupName := some n1 } [g2]
      (by rw [hq]; simp)
    have hs0 := sweep_cons_returned env fuel 0 { LogGroupName := some n0 }
      [{ LogGroupName := some n1 }, g2] (by rw [hp])
    rw [CloudwatchS3Export_ok env fuel _ hcfg hlist, hs0, hs1, hp, hq, hlist]
    have hcr : creates (Event.LoadDefaultConfig (.ok ()) ::
        Event.DescribeLogGroups 50
          (.ok [{ LogGroupName := some n0 }, { LogGroupName := some n1 }, g2]) ::
        (groupEvents env 0 n0 TaskId k ++ [Event.ListTagsLogGroup n1 (.error err)])) =
        [exportTaskInput (s3BucketName env) env.Local n0 (shortName n0) (env.Now 0 0)
          (env.Now 0 1)] := by
      rw [show ∀ (a : Result Unit) (b : Result (List LogGroup)) (l : List Event),
        creates (Event.LoadDefaultConfig a :: Event.DescribeLogGroups 50 b :: l) = creates l
        from fun _ _ _ => rfl, creates_append, creates_groupEvents]
      rfl
    exact ⟨rfl, rfl, hcr⟩

/-- Witness for C5: scenario S5. -/
theorem abort_on_first_error_witness :
    ([] = ([] : List Event) ∧
      (CloudwatchS3Export envS5 1).outcome = .fatal "ThrottlingException") ∧
    ((CloudwatchS3Export envS5 1).outcome = .fatal "ThrottlingException" ∧
      (CloudwatchS3Export envS5 1).trace =
        Event.LoadDefaultConfig (.ok ()) ::
          Event.DescribeLogGroups 50 envS5.DescribeLogGroups ::
          (groupEvents envS5 0 "/svc/a" (some "task-0") 0 ++
            [Event.ListTagsLogGroup "/svc/b" (.error "ThrottlingException")]) ∧
      creates (CloudwatchS3Export envS5 1).trace =
        [exportTaskInput (s3BucketName envS5) envS5.Local "/svc/a" (shortName "/svc/a")
          (envS5.Now 0 0) (envS5.Now 0 1)]) :=
  ⟨(abort_on_first_error envS5 1).1
      (Event.LoadDefaultConfig (.ok ()) ::
        Event.DescribeLogGroups 50 envS5.DescribeLogGroups ::
        groupEvents envS5 0 "/svc/a" (some "task-0") 0)
      (Event.ListTagsLogGroup "/svc/b" (.error "ThrottlingException")) []
      "ThrottlingException" (by decide) rfl,
    (abort_on_first_error envS5 1).2 "/svc/a" "/svc/b" { LogGroupName := some "/svc/c" }
      [("ExportLogs", "yes")] (some "task-0") 0 "ThrottlingException" rfl rfl rfl rfl rfl
      (by decide) (by decide) rfl⟩

/-- C9: for a selected group at position `i` whose create call succeeds and
whose describe responses are successes with the first final status at position
`k`, with fuel for `k + 1` polls the processing of the group returns with the
trace `groupEvents`: it has exactly `k + 1` describe calls, all for that task,
and exactly `k` sleeps, all of the polling interval, and in the sweep the
events of the later groups come after it. In scenario S6 (PENDING, PENDING,
RUNNING, COMPLETED) there are four describe calls and three sleeps. -/
theorem poll_cadence (env : Env) (fuel i : Nat) (name : String)
    (tags : List (String × String)) (TaskId : Option String) (k : Nat) (rest : List LogGroup)
    (ht : env.ListTagsLogGroup i = .ok tags) (hk : hasExportLogs tags = true)
    (hc : env.CreateExportTask i = .ok TaskId) (hf : FirstFinalAt env i k) (hfuel : k < fuel) :
    (processGroup env fuel i { LogGroupName := some name }).outcome = .returned ∧
    (processGroup env fuel i { LogGroupName := some name }).trace =
      groupEvents env i name TaskId k ∧
    describes (groupEvents env i name TaskId k) = List.replicate (k + 1) TaskId ∧
    sleeps (groupEvents env i name TaskId k) = List.replicate k exportCompleteInterval ∧
    (sweep env fuel i ({ LogGroupName := some name } :: rest)).trace =
      groupEvents env i name TaskId k ++ (sweep env fuel (i + 1) rest).trace ∧
    (describes (CloudwatchS3Export envS6 4).trace).length = 4 ∧
    (sleeps (CloudwatchS3Export envS6 4).trace).length = 3 := by
  have hp := processGroup_selected env fuel i name tags TaskId k ht hk hc hf hfuel
  have hs := sweep_cons_returned env fuel i { LogGroupName := some name } rest (by rw [hp])
  refine ⟨by rw [hp], by rw [hp], ?_, ?_, by rw [hs, hp], by decide, by decide⟩
  · simp [groupEvents, describes_append, describes, describes_pollEvents]
  · simp [groupEvents, sleeps_append, sleeps, sleeps_pollEvents]

/-- Witness for C9: scenario S6. -/
theorem poll_cadence_witness :
    (processGroup envS6 4 0 { LogGroupName := some "/svc/api" }).outcome = .returned ∧
    (processGroup envS6 4 0 { LogGroupName := some "/svc/api" }).trace =
      groupEvents envS6 0 "/svc/api" (some "task-0") 3 ∧
    describes (groupEvents envS6 0 "/svc/api" (some "task-0") 3) =
      List.replicate (3 + 1) (some "task-0") ∧
    sleeps (groupEvents envS6 0 "/svc/api" (some "task-0") 3) =
      List.replicate 3 exportCompleteInterval ∧
    (sweep envS6 4 0 ({ LogGroupName := some "/svc/api" } :: [])).trace =
      groupEvents envS6 0 "/svc/api" (some "task-0") 3 ++ (sweep envS6 4 (0 + 1) []).trace ∧
    (describes (CloudwatchS3Export envS6 4).trace).length = 4 ∧
    (sleeps (CloudwatchS3Export envS6 4).trace).length = 3 :=
  poll_cadence envS6 4 0 "/svc/api" [("ExportLogs", "yes")] (some "task-0") 3 [] rfl rfl rfl
    (by decide) (by decide)

/-- C10: in every run, a `DescribeExportTasks` call that succeeds with zero
task records is the last event of the trace: the run stops there with the
run-time error of the index expression `ExportTasks[0]`, before any status is
read, any sleep, or any further call. -/
theorem empty_describe_aborts (env : Env) (fuel : Nat) (pre post : List Event)
    (TaskId : Option String)
    (h : (CloudwatchS3Export env fuel).trace =
      pre ++ Event.DescribeExportTasks TaskId (.ok []) :: post) :
    post = [] ∧ (CloudwatchS3Export env fuel).outcome = .panic indexOutOfRange := by
  obtain ⟨h1, h2⟩ := CloudwatchS3Export_stops env fuel pre _ post (.panic indexOutOfRange) h rfl
  exact ⟨h1, h2⟩

/-- Witness for C10: the second describe response for
the first of two selected groups has no task. -/
theorem empty_describe_aborts_witness :
    ([] : List Event) = [] ∧
      (CloudwatchS3Export envEmptyDescribe 5).outcome = .panic indexOutOfRange :=
  empty_describe_aborts envEmptyDescribe 5
    ((CloudwatchS3Export envEmptyDescribe 5).trace.dropLast) [] (some "task-0") (by decide)

end CloudwatchS3Exporter
